import Mathlib

/-!
# csv_reader: type inference and type accumulation

A shallow embedding of the classification core of `csv_reader`
(`csv_reader.hpp`, `csv_reader.cpp`) together with theorems about it.

Conventions of the embedding
* a character range (`string`, `string_view`, iterator pair) is a `List Char`;
  a cursor into a line is represented by the suffix of the line that starts at it;
* a `csv_type_vector` is a `List csv_type`;
* a `csv_flags` value is the 16-bit pattern of its `int16_t` underlying value, a `Nat`
  below `2 ^ 16`;
* `assert(false)` is recorded in a Boolean that travels with the value the code
  returns when assertions are compiled out (`NDEBUG`); in a build with assertions the
  program aborts exactly when that Boolean is `true`;
* the locals `val` of `smallest_int_type` and `smallest_uint_type` have no initializer:
  what they hold is a parameter `u : uninit` of every call of `match_type`, and a run of
  `eval_line_types`, which calls `match_type` once per field, takes one such content per
  call, `us : Nat → uninit`.
-/

namespace CsvReader

/-! ## Data model (`csv_reader.hpp`) -/

/-- The enumeration `csv_type` of `csv_reader.hpp`, constructors in declaration order. -/
inductive csv_type where
  | boolean | int8 | uint8 | int16 | uint16 | int32 | uint32 | int64 | uint64
  | float32 | float64 | float80 | string | unknown
  deriving DecidableEq, Repr, Inhabited

open csv_type

/-- A `csv_type_vector`. -/
abbrev csv_type_vector := List csv_type

/-! ## Type accumulator (`csv_reader.cpp`, lines 207-321) -/

/-- The function `sint_bits`: width of a signed integer type, `0` for every other type. -/
def sint_bits (ct : csv_type) : Nat :=
  match ct with
  | int8 => 8
  | int16 => 16
  | int32 => 32
  | int64 => 64
  | _ => 0

/-- The function `uint_bits`: width of an unsigned integer type, `0` for every other type. -/
def uint_bits (ct : csv_type) : Nat :=
  match ct with
  | uint8 => 8
  | uint16 => 16
  | uint32 => 32
  | uint64 => 64
  | _ => 0

/-- The function `int_bits`. -/
def int_bits (ct : csv_type) : Nat := max (sint_bits ct) (uint_bits ct)

/-- The predicate `is_sint`. -/
def is_sint (ct : csv_type) : Bool := decide (sint_bits ct > 0)
/-- The predicate `is_uint`. -/
def is_uint (ct : csv_type) : Bool := decide (uint_bits ct > 0)
/-- The predicate `is_int`. -/
def is_int (ct : csv_type) : Bool := decide (int_bits ct > 0)
/-- The predicate `is_boolean`. -/
def is_boolean (ct : csv_type) : Bool := ct == boolean
/-- The predicate `is_float`. -/
def is_float (ct : csv_type) : Bool := ct == float32 || ct == float64 || ct == float80
/-- The predicate `is_string`. -/
def is_string (ct : csv_type) : Bool := ct == string
/-- The predicate `is_unknown`. -/
def is_unknown (ct : csv_type) : Bool := ct == unknown

/-- The function `make_sint`. The second component is `true` when the `default:` branch,
which holds `assert(false)`, is taken; the first component is the value returned
(`unknown` in that branch, when the assertion is compiled out). -/
def make_sint (bits : Nat) : csv_type × Bool :=
  if bits = 8 then (int8, false)
  else if bits = 16 then (int16, false)
  else if bits = 32 then (int32, false)
  else if bits = 64 then (int64, false)
  else (unknown, true)

/-- The function `make_uint`, with the same convention as `make_sint`. -/
def make_uint (bits : Nat) : csv_type × Bool :=
  if bits = 8 then (uint8, false)
  else if bits = 16 then (uint16, false)
  else if bits = 32 then (uint32, false)
  else if bits = 64 then (uint64, false)
  else (unknown, true)

/-- The body of the first loop of `accum_line_types` for one index: from the accumulated
type `afld` and the observed type `lfld` to the new content of `accum_types[i]`, and
whether an `assert(false)` was reached on the way. -/
def accum_column (afld lfld : csv_type) : csv_type × Bool :=
  if is_int afld then
    if is_int lfld then
      if is_sint afld && is_sint lfld then
        if sint_bits afld < sint_bits lfld then (lfld, false) else (afld, false)
      else if is_uint afld && is_uint lfld then
        if uint_bits afld < uint_bits lfld then (lfld, false) else (afld, false)
      else
        make_sint (max (sint_bits afld) (uint_bits lfld))
    else if is_boolean lfld then (string, false)
    else if is_float lfld then (lfld, false)
    else if is_string lfld then (lfld, false)
    else if is_unknown lfld then (afld, false)
    else (afld, true)
  else if is_boolean afld then
    if is_boolean lfld || is_unknown lfld then (afld, false)
    else (string, false)
  else if is_float afld then
    if is_string lfld then (lfld, false)
    else if is_boolean lfld then (string, false)
    else (afld, false)
  else if is_string afld then (afld, false)
  else if is_unknown afld then (lfld, false)
  else (afld, true)

/-- One iteration of the first loop of `accum_line_types`, at index `i`. -/
def accum_step (line_types : csv_type_vector) (st : csv_type_vector × Bool) (i : Nat) :
    csv_type_vector × Bool :=
  let r := accum_column (st.1.getD i unknown) (line_types.getD i unknown)
  (st.1.set i r.1, st.2 || r.2)

/-- The function `accum_line_types`: the first loop runs over the indices below
`min(accum_types.size(), line_types.size())`, the second loop appends the entries of
`line_types` from index `accum_types.size()` on. The result is the final content of
`accum_types` and whether an `assert(false)` was reached. -/
def accum_line_types (accum_types line_types : csv_type_vector) : csv_type_vector × Bool :=
  let st := (List.range (min accum_types.length line_types.length)).foldl
    (accum_step line_types) (accum_types, false)
  let appended := (List.range' st.1.length (line_types.length - st.1.length)).foldl
    (fun acc i => acc ++ [line_types.getD i unknown]) st.1
  (appended, st.2)

/-! ## Detection flags (`csv_reader.hpp`, lines 28-55; `csv_reader.cpp`, lines 56-61) -/

/-- A `csv_flags` value: the bit pattern of its `int16_t` underlying value. -/
abbrev csv_flags := Nat

namespace csv_flags
def has_header_row : csv_flags := 0x01
def no_header_row : csv_flags := 0x20
def detect_header_row : csv_flags := 0x00
def header_mask : csv_flags := has_header_row ||| no_header_row
def skip_empty_lines : csv_flags := 0x0004
def include_empty_lines : csv_flags := 0x0000
def allow_only_fixed_column_count : csv_flags := 0x0008
def allow_variable_column_count : csv_flags := 0x0000
def detect_signed_int : csv_flags := 0x0010
def detect_unsigned_int : csv_flags := 0x0020
def detect_any_int : csv_flags := detect_signed_int ||| detect_unsigned_int
def detect_true_false_bool : csv_flags := 0x0040
def detect_yes_no_bool : csv_flags := 0x0080
def detect_integer_bool : csv_flags := 0x0100
def detect_any_bool : csv_flags :=
  detect_true_false_bool ||| detect_yes_no_bool ||| detect_integer_bool
def none : csv_flags := 0x00
def header_default : csv_flags :=
  has_header_row ||| skip_empty_lines ||| allow_variable_column_count ||| detect_any_int
    ||| detect_any_bool
def no_header_defaults : csv_flags :=
  no_header_row ||| skip_empty_lines ||| allow_variable_column_count ||| detect_any_int
    ||| detect_any_bool
end csv_flags

/-- The conversion `static_cast<int8_t>(f)` of a flags value (modular, as in C++20),
given as the 16-bit two's complement pattern of the resulting `int8_t` value: the low
byte of `f`, sign-extended. -/
def static_cast_int8 (f : csv_flags) : Nat :=
  if f % 256 < 128 then f % 256 else f % 256 + 0xFF00

/-- The function `operator&` on `csv_flags`: both operands are converted to `int8_t`, the
bitwise AND is taken, and the result (a value of the `int8_t` range) is converted back. -/
def op_and (lhs rhs : csv_flags) : csv_flags := static_cast_int8 lhs &&& static_cast_int8 rhs

/-- The function `operator|` on `csv_flags`, with the same conversions as `op_and`. -/
def op_or (lhs rhs : csv_flags) : csv_flags := static_cast_int8 lhs ||| static_cast_int8 rhs

/-- The comparison `a == b` of two `csv_flags` values: equality of the 16-bit patterns. -/
def flags_eq (a b : csv_flags) : Bool := a % 65536 == b % 65536

/-! ## Number parsing (`csv_reader.cpp`, lines 63-134)

`std::from_chars` is a function of the C++ standard library. The three overloads the
program calls are modelled from the C++ standard ([charconv.from.chars]); each model
returns how many characters `result.ptr` lies past `first`. -/

/-- The function `is_dec_digit`. -/
def is_dec_digit (ch : Char) : Bool := decide ('0' ≤ ch) && decide (ch ≤ '9')

/-- The function `is_hex_digit`. -/
def is_hex_digit (ch : Char) : Bool :=
  is_dec_digit ch || (decide ('a' ≤ ch) && decide (ch ≤ 'f'))
    || (decide ('A' ≤ ch) && decide (ch ≤ 'F'))

/-- The value of a character as a digit, as `std::from_chars` reads it: `0`-`9`, then
`a`-`z` or `A`-`Z` for ten to thirty-five. -/
def digit_value (ch : Char) : Option Nat :=
  if '0' ≤ ch ∧ ch ≤ '9' then some (ch.toNat - 48)
  else if 'a' ≤ ch ∧ ch ≤ 'z' then some (ch.toNat - 87)
  else if 'A' ≤ ch ∧ ch ≤ 'Z' then some (ch.toNat - 55)
  else Option.none

/-- Whether a character is a digit of the given base. -/
def is_digit_of (base : Nat) (ch : Char) : Bool :=
  match digit_value ch with
  | some d => decide (d < base)
  | Option.none => false

/-- The longest prefix of `s` made of digits of the given base. -/
def leading_digits (base : Nat) (s : List Char) : List Char := s.takeWhile (is_digit_of base)

/-- The number a digit sequence denotes in the given base, most significant digit first. -/
def digits_number (base : Nat) (ds : List Char) : Nat :=
  ds.foldl (fun acc ch => acc * base + (digit_value ch).getD 0) 0

/-- Modelled from the C++ standard: `std::from_chars(first, last, val, base)` for
`uint64_t`. The pattern is a non-empty digit sequence, no sign. Returns the offset of
`result.ptr` and the content of `val` afterwards: `val` is left unmodified when nothing
matches and when the number is out of range (`ptr` is then still past the digits). -/
def from_chars_uint64 (s : List Char) (val : Nat) (base : Nat) : Nat × Nat :=
  let ds := leading_digits base s
  if ds.length = 0 then (0, val)
  else if digits_number base ds < 2 ^ 64 then (ds.length, digits_number base ds)
  else (ds.length, val)

/-- Modelled from the C++ standard: `std::from_chars(first, last, val)` for `int64_t`,
base ten. The pattern is an optional minus sign followed by a non-empty digit sequence; a
plus sign is not part of it. Same convention as `from_chars_uint64`. -/
def from_chars_int64 (s : List Char) (val : Int) : Nat × Int :=
  let neg := s.head? == some '-'
  let body := if neg then s.tail else s
  let ds := leading_digits 10 body
  let n : Int := if neg then -(digits_number 10 ds : Int) else (digits_number 10 ds : Int)
  let len := if neg then ds.length + 1 else ds.length
  if ds.length = 0 then (0, val)
  else if -(2 ^ 63 : Int) ≤ n ∧ n ≤ 2 ^ 63 - 1 then (len, n)
  else (len, val)

/-- Whether `s` starts with `word`, ignoring the case of the letters of `s`
(`word` is given in lower case). -/
def starts_with_nocase (s word : List Char) : Bool :=
  decide (word.length ≤ s.length) && ((s.take word.length).map Char.toLower == word)

/-- The characters of an n-char-sequence: digits, letters and the underscore. -/
def is_nchar (ch : Char) : Bool := ch.isAlphanum || ch == '_'

/-- The length of the exponent part at the start of `s`: `e` or `E`, an optional sign and
a non-empty digit sequence; `0` when `s` does not start with one. -/
def exponent_length (s : List Char) : Nat :=
  if s.head? == some 'e' || s.head? == some 'E' then
    let r := s.tail
    let signed := r.head? == some '+' || r.head? == some '-'
    let ds := leading_digits 10 (if signed then r.tail else r)
    if ds.length = 0 then 0 else 1 + (if signed then 1 else 0) + ds.length
  else 0

/-- The length of the unsigned part of a floating-point pattern at the start of `s`:
`infinity`, `inf`, `nan` with an optional parenthesised n-char-sequence (all ignoring
case), or decimal digits with an optional point and an optional exponent, at least one
digit before the exponent; `0` when nothing matches. -/
def float_body_length (s : List Char) : Nat :=
  if starts_with_nocase s "infinity".toList then 8
  else if starts_with_nocase s "inf".toList then 3
  else if starts_with_nocase s "nan".toList then
    let r := s.drop 3
    let ns := (r.drop 1).takeWhile is_nchar
    if r.head? == some '(' && ((r.drop 1).drop ns.length).head? == some ')' then
      3 + 1 + ns.length + 1
    else 3
  else
    let ip := leading_digits 10 s
    let r := s.drop ip.length
    let pointed := r.head? == some '.'
    let fp := if pointed then leading_digits 10 r.tail else []
    if ip.length + fp.length = 0 then 0
    else
      let m := ip.length + (if pointed then 1 + fp.length else 0)
      m + exponent_length (s.drop m)

/-- Modelled from the C++ standard: `std::from_chars(first, last, val)` for `double`
(`chars_format::general`). The pattern is an optional minus sign followed by the unsigned
part; a plus sign is accepted only inside the exponent and no `0x` prefix is read.
Returns the offset of `result.ptr`; it lies past the pattern also when the value is out
of range. -/
def from_chars_double (s : List Char) : Nat :=
  let neg := s.head? == some '-'
  let n := float_body_length (if neg then s.tail else s)
  if n = 0 then 0 else if neg then n + 1 else n

/-- The indeterminate contents of the two local variables `val` that `smallest_int_type`
and `smallest_uint_type` declare without an initializer, in one call of `match_type`:
whatever they hold is what the functions read when `std::from_chars` leaves `val`
unmodified. The locals are created anew in every call, so two calls may find different
contents. -/
structure uninit where
  int64_val : Int
  uint64_val : Nat

/-- The function `smallest_int_type`. -/
def smallest_int_type (u : uninit) (s : List Char) : csv_type :=
  let result := from_chars_int64 s u.int64_val
  let val := result.2
  if result.1 ≠ s.length then unknown
  else if -128 ≤ val ∧ val ≤ 127 then int8
  else if -32768 ≤ val ∧ val ≤ 32767 then int16
  else if -2147483648 ≤ val ∧ val ≤ 2147483647 then int32
  else int64

/-- The function `smallest_uint_type`. -/
def smallest_uint_type (u : uninit) (s : List Char) (base : Nat) : csv_type :=
  let result := from_chars_uint64 s u.uint64_val base
  let val := result.2
  if result.1 ≠ s.length then unknown
  else if val ≤ 255 then uint8
  else if val ≤ 65535 then uint16
  else if val ≤ 4294967295 then uint32
  else uint64

/-- The function `smallest_float_type`. -/
def smallest_float_type (s : List Char) : csv_type :=
  if from_chars_double s ≠ s.length then unknown else float64

/-! ## Field classifier (`csv_reader.hpp`, lines 77-124) -/

/-- The character `first[i]` of a range, for an index below its length. -/
def char_at (s : List Char) (i : Nat) : Char := s.getD i (Char.ofNat 0)

/-- The function `match_type`. The cursor `first` of the source is advanced in place; the
successive values it takes are `chars`, `first1` (after the `0x` test) and `first2` (after
the `+` test). -/
def match_type (u : uninit) (chars : List Char) (flags : csv_flags) : csv_type :=
  let c := char_at chars
  if chars.length = 0 then unknown
  else if flags_eq (op_and flags csv_flags.detect_true_false_bool)
        csv_flags.detect_true_false_bool
      && (chars.length == 4 && (c 0 == 'T' || c 0 == 't') && (c 1 == 'R' || c 1 == 'r')
        && (c 2 == 'U' || c 2 == 'u') && (c 3 == 'E' || c 3 == 'e')) then boolean
  else if flags_eq (op_and flags csv_flags.detect_true_false_bool)
        csv_flags.detect_true_false_bool
      && (chars.length == 5 && (c 0 == 'F' || c 0 == 'f') && (c 1 == 'A' || c 1 == 'a')
        && (c 2 == 'L' || c 2 == 'l') && (c 3 == 'S' || c 3 == 's')
        && (c 4 == 'E' || c 4 == 'e')) then boolean
  else if flags_eq (op_and flags csv_flags.detect_yes_no_bool) csv_flags.detect_yes_no_bool
      && (chars.length == 3 && (c 0 == 'Y' || c 0 == 'y') && (c 1 == 'E' || c 1 == 'e')
        && (c 2 == 'S' || c 2 == 's')) then boolean
  else if flags_eq (op_and flags csv_flags.detect_yes_no_bool) csv_flags.detect_yes_no_bool
      && (chars.length == 2 && (c 0 == 'N' || c 0 == 'n') && (c 1 == 'O' || c 1 == 'o'))
      then boolean
  else
    let hex := decide (chars.length ≥ 2) && c 0 == '0' && (c 1 == 'x' || c 1 == 'X')
    let first1 := if hex then chars.drop 2 else chars
    if hex && first1.length == 0 then string
    else
      let fld_type := if hex then smallest_uint_type u first1 16 else unknown
      if fld_type ≠ unknown then fld_type
      else
        let plus := decide (first1.length > 0) && char_at first1 0 == '+'
        let first2 := if plus then first1.drop 1 else first1
        if plus && first2.length == 0 then string
        else if smallest_int_type u first2 ≠ unknown then smallest_int_type u first2
        else if smallest_float_type first2 ≠ unknown then smallest_float_type first2
        else string

/-! ## Line tokenizer (`csv_reader.cpp`, lines 136-205) -/

/-- The function `match_symbol`: both ranges are walked while their characters agree; the
result is `true` when either range is exhausted. -/
def match_symbol : List Char → List Char → Bool
  | [], _ => true
  | _ :: _, [] => true
  | l :: ln, s :: sy => if l == s then match_symbol ln sy else false

/-- The function `match_any_char`, applied to the character under the iterator. -/
def match_any_char (ch : Char) (charset : List Char) : Bool := charset.any (fun c => ch == c)

/-- The loop that looks for the trailing quote (line 181): the cursor stops at the first
position where `match_symbol` accepts `quote_trail_symbol`, or at the end of the line. -/
def find_trail (quote_trail_symbol : List Char) : List Char → List Char
  | [] => []
  | c :: cs =>
    if match_symbol (c :: cs) quote_trail_symbol then c :: cs
    else find_trail quote_trail_symbol cs

/-- The loop over an unquoted value (lines 195-198). `pos` and `last` are the offsets of
the cursor `fld` and of the iterator `last` from `first`; the result is the final offset
of `last` and the position where `fld` stops (a separator, or the end of the line). -/
def scan_unquoted (sep_charset whitesp_charset : List Char) :
    List Char → Nat → Nat → Nat × List Char
  | [], _, last => (last, [])
  | c :: cs, pos, last =>
    if match_any_char c sep_charset then (last, c :: cs)
    else scan_unquoted sep_charset whitesp_charset cs (pos + 1)
      (if !match_any_char c whitesp_charset then pos + 1 else last)

/-- What a run of the field loop of `eval_line_types` ends in: the vector of types, a
cursor moved beyond the end of the line by `fld += size(symbol)` (the behaviour of the
program is undefined from there on), or, for the embedding only, exhausted fuel. -/
inductive scan_result where
  | types (type_vec : csv_type_vector)
  | overrun
  | out_of_fuel
  deriving DecidableEq, Repr

/-- The effect of `type_vec.push_back(t)` ahead of the rest of the run. -/
def scan_result.push (t : csv_type) : scan_result → scan_result
  | scan_result.types v => scan_result.types (t :: v)
  | scan_result.overrun => scan_result.overrun
  | scan_result.out_of_fuel => scan_result.out_of_fuel

/-- The contents the later calls of `match_type` find, when `us i` is what call `i` of a
run finds: the contents from the second call on. -/
def later_calls (us : Nat → uninit) : Nat → uninit := fun n => us (n + 1)

/-- The field loop of `eval_line_types` (lines 166-203), started with the cursor at the
suffix `fld` of the line; one unit of fuel is spent per iteration. Every iteration calls
`match_type` at most once: `us 0` is what the uninitialized locals hold in the call of
this iteration, `later_calls us` is for the iterations that follow. -/
def eval_fields (us : Nat → uninit) (sep_charset quote_lead_symbol quote_trail_symbol
    whitesp_charset : List Char) (flags : csv_flags) : Nat → List Char → scan_result
  | fuel, fld =>
    if fld.length = 0 then scan_result.types []
    else
      match fuel with
      | 0 => scan_result.out_of_fuel
      | fuel + 1 =>
        let fld1 := fld.dropWhile (fun ch => match_any_char ch whitesp_charset)
        if fld1.length = 0 then scan_result.types [unknown]
        else if match_symbol fld1 quote_lead_symbol then
          if fld1.length < quote_lead_symbol.length then scan_result.overrun
          else
            let first := fld1.drop quote_lead_symbol.length
            let fld2 := find_trail quote_trail_symbol first
            let t := match_type (us 0) (first.take (first.length - fld2.length)) flags
            if fld2.length = 0 then scan_result.types [t]
            else if fld2.length < quote_trail_symbol.length then scan_result.overrun
            else
              let fld3 := (fld2.drop quote_trail_symbol.length).dropWhile
                (fun ch => !match_any_char ch sep_charset)
              let fld4 := if fld3.length ≠ 0 then fld3.drop 1 else fld3
              (eval_fields (later_calls us) sep_charset quote_lead_symbol quote_trail_symbol
                whitesp_charset flags fuel fld4).push t
        else
          let r := scan_unquoted sep_charset whitesp_charset fld1 0 0
          let t := match_type (us 0) (fld1.take r.1) flags
          let fld2 := if r.2.length ≠ 0 then r.2.drop 1 else r.2
          (eval_fields (later_calls us) sep_charset quote_lead_symbol quote_trail_symbol
            whitesp_charset flags fuel fld2).push t

/-- The function `eval_line_types`; `us i` is what the uninitialized locals hold in call
`i` of `match_type`. Every iteration of the field loop that is followed by another one
moves the cursor forward, so `rng.length` units of fuel are enough. -/
def eval_line_types (us : Nat → uninit) (rng sep_charset quote_lead_symbol
    quote_trail_symbol whitesp_charset : List Char) (flags : csv_flags) : scan_result :=
  if rng.length = 0 then scan_result.types [unknown]
  else eval_fields us sep_charset quote_lead_symbol quote_trail_symbol whitesp_charset flags
    rng.length rng

/-! ## Notions used to state the properties

The definitions of this section are not part of the program: they name the notions the
properties below are stated with. -/

/-- Folding `accum_line_types` over a sequence of per-line type vectors, starting from
the empty accumulator; the Boolean collects the assertions reached by any of the calls. -/
def accum_lines (lines : List csv_type_vector) : csv_type_vector × Bool :=
  lines.foldl (fun st l => let r := accum_line_types st.1 l; (r.1, st.2 || r.2)) ([], false)

/-- The types of the data model of the specification: every `csv_type` except `float32`
and `float80`. -/
def is_spec_type (ct : csv_type) : Bool := !(ct == float32 || ct == float80)

/-- The rank of a type in the promotion lattice: `unknown` below the Boolean, integer and
floating point types, and these below `string`. -/
def lattice_rank (ct : csv_type) : Nat :=
  if is_unknown ct then 0 else if is_string ct then 2 else 1

/-- The narrowest unsigned integer type whose range contains `v`. -/
def narrowest_uint (v : Nat) : csv_type :=
  if v ≤ 2 ^ 8 - 1 then uint8 else if v ≤ 2 ^ 16 - 1 then uint16
  else if v ≤ 2 ^ 32 - 1 then uint32 else uint64

/-- The narrowest signed integer type whose range contains `v`. -/
def narrowest_sint (v : Int) : csv_type :=
  if -2 ^ 7 ≤ v ∧ v ≤ 2 ^ 7 - 1 then int8 else if -2 ^ 15 ≤ v ∧ v ≤ 2 ^ 15 - 1 then int16
  else if -2 ^ 31 ≤ v ∧ v ≤ 2 ^ 31 - 1 then int32 else int64

/-- The value of a hexadecimal digit character. -/
def hex_digit_number (c : Char) : Nat :=
  if c.toNat ≤ 57 then c.toNat - 48 else if 97 ≤ c.toNat then c.toNat - 87 else c.toNat - 55

/-- The number denoted by a sequence of hexadecimal digits, most significant first. -/
def hex_number (ds : List Char) : Nat := Nat.ofDigits 16 (ds.map hex_digit_number).reverse

/-- The number denoted by a sequence of decimal digits, most significant first. -/
def dec_number (ds : List Char) : Nat :=
  Nat.ofDigits 10 (ds.map (fun c => c.toNat - 48)).reverse

/-- The upper/lower-case spellings of `yes` and of `no`. -/
def yes_no_spellings : List (List Char) :=
  ["yes".toList, "yeS".toList, "yEs".toList, "yES".toList, "Yes".toList, "YeS".toList,
    "YEs".toList, "YES".toList, "no".toList, "nO".toList, "No".toList, "NO".toList]

/-- The spellings of a word in which every letter is written in upper or in lower case. -/
def case_spellings : List Char → List (List Char)
  | [] => [[]]
  | c :: cs =>
    (case_spellings cs).map (fun r => c.toLower :: r)
      ++ (case_spellings cs).map (fun r => c.toUpper :: r)

/-- The upper/lower-case spellings of `true` and of `false`. -/
def true_false_spellings : List (List Char) :=
  case_spellings "true".toList ++ case_spellings "false".toList

/-- The types a non-empty range may resolve to: `boolean`, the integer types, `float64`
and `string`. -/
def is_resolved (ct : csv_type) : Bool :=
  is_boolean ct || is_int ct || ct == float64 || is_string ct

/-- The types without the unsigned integer types (and without `float32` and `float80`,
which are not types of the specification): `unknown`, `boolean`, `int8`, `int16`, `int32`,
`int64`, `float64` and `string`. -/
def no_unsigned (ct : csv_type) : Bool :=
  !(is_uint ct || ct == float32 || ct == float80)

/-- The place of a type in the chain `int8 < int16 < int32 < int64 < float64`, `0` for a
type outside the chain. -/
def chain_place (ct : csv_type) : Nat :=
  match ct with
  | int8 => 1
  | int16 => 2
  | int32 => 3
  | int64 => 4
  | float64 => 5
  | _ => 0

/-- The order of the promotion lattice on the types without unsigned integers:
`unknown < boolean < string` and
`unknown < int8 < int16 < int32 < int64 < float64 < string`. -/
def lattice_le (a b : csv_type) : Bool :=
  a == b || a == unknown || b == string
    || (decide (0 < chain_place a) && decide (chain_place a ≤ chain_place b))

/-- A type vector without unsigned integer types. -/
def plain_vector (v : csv_type_vector) : Prop := ∀ t ∈ v, no_unsigned t = true

instance (v : csv_type_vector) : Decidable (plain_vector v) := by
  unfold plain_vector
  infer_instance

/-- The number of separator characters of a line. -/
def count_seps (sep line : List Char) : Nat := line.countP (fun ch => match_any_char ch sep)

/-- Whether the last character of a line is a separator character. -/
def ends_with_sep (sep line : List Char) : Bool :=
  match line.getLast? with
  | some ch => match_any_char ch sep
  | Option.none => false

/-- The number of fields `eval_line_types` returns for a line without quotes: one per
separator character, and one more unless the line ends with a separator character. -/
def scanned_fields (sep line : List Char) : Nat :=
  count_seps sep line + (if ends_with_sep sep line then 0 else 1)

/-- The result of `match_type` on the range `chars` does not depend on what the
uninitialized locals `val` hold: it is the same in every call. -/
def val_independent (chars : List Char) (flags : csv_flags) : Prop :=
  ∀ u1 u2 : uninit, match_type u1 chars flags = match_type u2 chars flags

/-- Twenty nines, a decimal literal that does not fit in 64 bits. -/
def nines : List Char := "99999999999999999999".toList

/-- The contents of the uninitialized locals in a run whose calls all find zero. -/
def zero_calls : Nat → uninit := fun _ => ⟨0, 0⟩

/-- The flags of the test suite: `detect_true_false_bool | detect_yes_no_bool`. -/
def test_flags : csv_flags :=
  op_or csv_flags.detect_true_false_bool csv_flags.detect_yes_no_bool

/-- A field together with the whitespace written before and after it. -/
structure padded_field where
  pre : List Char
  f : List Char
  post : List Char

/-- The characters of a padded field. -/
def padded_field.text (x : padded_field) : List Char := x.pre ++ x.f ++ x.post

/-- The line made of the padded fields `segs`, each followed by its separator character,
and of a last padded field. -/
def join_fields : List (padded_field × Char) → padded_field → List Char
  | [], last => last.text
  | (x, c) :: rest, last => x.text ++ c :: join_fields rest last

/-- The conditions on one padded field of an unquoted line: the padding is made of
whitespace characters, the field holds no separator character and no quote-lead
character `q`, and it neither begins nor ends with a whitespace character. -/
def unquoted_field (sep ws : List Char) (q : Char) (x : padded_field) : Prop :=
  (∀ c ∈ x.pre, match_any_char c ws = true) ∧ (∀ c ∈ x.post, match_any_char c ws = true)
    ∧ (∀ c ∈ x.f, match_any_char c sep = false ∧ c ≠ q)
    ∧ (∀ c ∈ x.f.head?, match_any_char c ws = false)
    ∧ (∀ c ∈ x.f.getLast?, match_any_char c ws = false)

instance (sep ws : List Char) (q : Char) (x : padded_field) :
    Decidable (unquoted_field sep ws q x) := by
  unfold unquoted_field
  infer_instance

/-- The first two padded fields of the line `1, 2.3, 0x00`, with their separators. -/
def sample_segs : List (padded_field × Char) :=
  [(⟨[], "1".toList, []⟩, ','), (⟨[' '], "2.3".toList, []⟩, ',')]

/-- The last padded field of the line `1, 2.3, 0x00`. -/
def sample_last : padded_field := ⟨[' '], "0x00".toList, []⟩

/-- The padded fields of the line `1,,2`, the middle one blank. -/
def blank_segs : List (padded_field × Char) :=
  [(⟨[], "1".toList, []⟩, ','), (⟨[], [], []⟩, ',')]

/-- The last padded field of the line `1,,2`. -/
def blank_last : padded_field := ⟨[], "2".toList, []⟩

/-- The line of twenty nines as one padded field. -/
def nines_field : padded_field := ⟨[], nines, []⟩

/-! ### The stages of `match_type`

`match_type` is one function in the program. To reason about it, its tests are named and
its tail is cut into stages; `match_type_eq` proves that the stages compose to the
function of the embedding. -/

/-- The test of line 88 of `csv_reader.hpp`: a spelling of `true`. -/
def spells_true (chars : List Char) : Bool :=
  let c := char_at chars
  chars.length == 4 && (c 0 == 'T' || c 0 == 't') && (c 1 == 'R' || c 1 == 'r')
    && (c 2 == 'U' || c 2 == 'u') && (c 3 == 'E' || c 3 == 'e')

/-- The test of line 90: a spelling of `false`. -/
def spells_false (chars : List Char) : Bool :=
  let c := char_at chars
  chars.length == 5 && (c 0 == 'F' || c 0 == 'f') && (c 1 == 'A' || c 1 == 'a')
    && (c 2 == 'L' || c 2 == 'l') && (c 3 == 'S' || c 3 == 's') && (c 4 == 'E' || c 4 == 'e')

/-- The test of line 95: a spelling of `yes`. -/
def spells_yes (chars : List Char) : Bool :=
  let c := char_at chars
  chars.length == 3 && (c 0 == 'Y' || c 0 == 'y') && (c 1 == 'E' || c 1 == 'e')
    && (c 2 == 'S' || c 2 == 's')

/-- The test of line 97: a spelling of `no`. -/
def spells_no (chars : List Char) : Bool :=
  let c := char_at chars
  chars.length == 2 && (c 0 == 'N' || c 0 == 'n') && (c 1 == 'O' || c 1 == 'o')

/-- The test of line 102: the range starts with `0x` or `0X`. -/
def has_hex_lead (chars : List Char) : Bool :=
  decide (chars.length ≥ 2) && char_at chars 0 == '0'
    && (char_at chars 1 == 'x' || char_at chars 1 == 'X')

/-- The test of line 110: the range starts with `+`. -/
def has_plus_lead (first : List Char) : Bool :=
  decide (first.length > 0) && char_at first 0 == '+'

/-- Lines 113-123 of `match_type`: the signed integer test, the floating point test and
the default, on the range that starts at the cursor. -/
def match_signed_or_float (u : uninit) (first : List Char) : csv_type :=
  if smallest_int_type u first ≠ unknown then smallest_int_type u first
  else if smallest_float_type first ≠ unknown then smallest_float_type first
  else string

/-- Lines 109-123 of `match_type`, on the range that starts at the cursor. -/
def match_decimal (u : uninit) (first : List Char) : csv_type :=
  if has_plus_lead first then
    if (first.drop 1).length = 0 then string else match_signed_or_float u (first.drop 1)
  else match_signed_or_float u first

/-- Lines 101-123 of `match_type`: what is done once the Boolean spellings are ruled out. -/
def match_number (u : uninit) (chars : List Char) : csv_type :=
  if has_hex_lead chars then
    if (chars.drop 2).length = 0 then string
    else if smallest_uint_type u (chars.drop 2) 16 ≠ unknown then
      smallest_uint_type u (chars.drop 2) 16
    else match_decimal u (chars.drop 2)
  else match_decimal u chars

/-- Lines 101-123 of `match_type`, as they stand in the embedding. -/
def match_number_raw (u : uninit) (chars : List Char) : csv_type :=
  let c := char_at chars
  let hex := decide (chars.length ≥ 2) && c 0 == '0' && (c 1 == 'x' || c 1 == 'X')
  let first1 := if hex then chars.drop 2 else chars
  if hex && first1.length == 0 then string
  else
    let fld_type := if hex then smallest_uint_type u first1 16 else unknown
    if fld_type ≠ unknown then fld_type
    else
      let plus := decide (first1.length > 0) && char_at first1 0 == '+'
      let first2 := if plus then first1.drop 1 else first1
      if plus && first2.length == 0 then string
      else if smallest_int_type u first2 ≠ unknown then smallest_int_type u first2
      else if smallest_float_type first2 ≠ unknown then smallest_float_type first2
      else string

/-! ## Lemmas -/

theorem char_le_iff (a b : Char) : a ≤ b ↔ a.toNat ≤ b.toNat := Iff.rfl

theorem is_dec_digit_iff (c : Char) : is_dec_digit c = true ↔ 48 ≤ c.toNat ∧ c.toNat ≤ 57 := by
  simp only [is_dec_digit, Bool.and_eq_true, decide_eq_true_eq, char_le_iff]
  exact Iff.rfl

theorem is_hex_digit_iff (c : Char) : is_hex_digit c = true ↔
    (48 ≤ c.toNat ∧ c.toNat ≤ 57) ∨ (97 ≤ c.toNat ∧ c.toNat ≤ 102)
      ∨ (65 ≤ c.toNat ∧ c.toNat ≤ 70) := by
  simp only [is_hex_digit, is_dec_digit, Bool.and_eq_true, Bool.or_eq_true, decide_eq_true_eq,
    char_le_iff, or_assoc]
  exact Iff.rfl

theorem digit_value_dec (c : Char) (h : is_dec_digit c = true) :
    digit_value c = some (c.toNat - 48) := by
  have h1 : '0' ≤ c ∧ c ≤ '9' := by
    simpa only [is_dec_digit, Bool.and_eq_true, decide_eq_true_eq] using h
  simp only [digit_value, h1, and_self, if_true]

theorem digit_value_hex (c : Char) (h : is_hex_digit c = true) :
    ∃ d, digit_value c = some d ∧ d < 16 ∧
      d = (if c.toNat ≤ 57 then c.toNat - 48 else if 97 ≤ c.toNat then c.toNat - 87
        else c.toNat - 55) := by
  rw [is_hex_digit_iff] at h
  unfold digit_value
  simp only [char_le_iff]
  have e0 : ('0' : Char).toNat = 48 := rfl
  have e9 : ('9' : Char).toNat = 57 := rfl
  have ea : ('a' : Char).toNat = 97 := rfl
  have ez : ('z' : Char).toNat = 122 := rfl
  have eA : ('A' : Char).toNat = 65 := rfl
  have eZ : ('Z' : Char).toNat = 90 := rfl
  rw [e0, e9, ea, ez, eA, eZ]
  rcases h with h | h | h
  · rw [if_pos h]
    exact ⟨_, rfl, by omega, by rw [if_pos h.2]⟩
  · rw [if_neg (by omega), if_pos (by omega)]
    exact ⟨_, rfl, by omega, by rw [if_neg (by omega), if_pos h.1]⟩
  · rw [if_neg (by omega), if_neg (by omega), if_pos (by omega)]
    exact ⟨_, rfl, by omega, by rw [if_neg (by omega), if_neg (by omega)]⟩

theorem match_decimal_raw (u : uninit) (first1 : List Char) :
    (let plus := decide (first1.length > 0) && char_at first1 0 == '+'
     let first2 := if plus then first1.drop 1 else first1
     if plus && first2.length == 0 then string
     else if smallest_int_type u first2 ≠ unknown then smallest_int_type u first2
     else if smallest_float_type first2 ≠ unknown then smallest_float_type first2
     else string) = match_decimal u first1 := by
  unfold match_decimal match_signed_or_float has_plus_lead
  simp only []
  cases decide (first1.length > 0) && char_at first1 0 == '+'
  · simp only [Bool.false_and, Bool.false_eq_true, if_false]
  · simp only [Bool.true_and, if_true, beq_iff_eq]

theorem match_number_raw_eq (u : uninit) (chars : List Char) :
    match_number_raw u chars = match_number u chars := by
  unfold match_number_raw match_number has_hex_lead
  simp only []
  cases decide (chars.length ≥ 2) && char_at chars 0 == '0'
      && (char_at chars 1 == 'x' || char_at chars 1 == 'X')
  · simp only [Bool.false_and, Bool.false_eq_true, if_false, ne_eq, not_true_eq_false]
    exact match_decimal_raw u chars
  · simp only [Bool.true_and, if_true, beq_iff_eq]
    by_cases h : (chars.drop 2).length = 0
    · simp only [h, if_true]
    · simp only [h, if_false]
      by_cases h2 : smallest_uint_type u (chars.drop 2) 16 = unknown
      · simp only [h2, ne_eq, not_true_eq_false, if_false]
        exact match_decimal_raw u (chars.drop 2)
      · simp only [h2, ne_eq, not_false_eq_true, if_true]

theorem match_type_eq (u : uninit) (chars : List Char) (flags : csv_flags) :
    match_type u chars flags =
      if chars.length = 0 then unknown
      else if flags_eq (op_and flags csv_flags.detect_true_false_bool)
          csv_flags.detect_true_false_bool && (spells_true chars || spells_false chars)
        then boolean
      else if flags_eq (op_and flags csv_flags.detect_yes_no_bool)
          csv_flags.detect_yes_no_bool && (spells_yes chars || spells_no chars)
        then boolean
      else match_number u chars := by
  rw [← match_number_raw_eq]
  unfold match_type match_number_raw spells_true spells_false spells_yes spells_no
  generalize flags_eq (op_and flags csv_flags.detect_true_false_bool)
    csv_flags.detect_true_false_bool = tf
  generalize flags_eq (op_and flags csv_flags.detect_yes_no_bool)
    csv_flags.detect_yes_no_bool = yn
  simp only []
  by_cases h0 : chars.length = 0
  · simp only [h0, if_true]
  · simp only [h0, if_false]
    cases tf <;> cases yn <;> simp only [Bool.false_and, Bool.true_and, Bool.false_eq_true,
      if_false, Bool.or_eq_true, ite_or]

theorem digits_number_foldl (base : Nat) (g : Char → Nat) (ds : List Char) (acc : Nat) :
    ds.foldl (fun a ch => a * base + g ch) acc
      = acc * base ^ ds.length + Nat.ofDigits base (ds.map g).reverse := by
  induction ds generalizing acc with
  | nil => simp
  | cons c cs ih =>
    rw [List.foldl_cons, ih, List.map_cons, List.reverse_cons, Nat.ofDigits_append,
      Nat.ofDigits_singleton, List.length_cons, List.length_reverse, List.length_map]
    ring

theorem digits_number_eq (base : Nat) (g : Char → Nat) (ds : List Char)
    (h : ∀ c ∈ ds, (digit_value c).getD 0 = g c) :
    digits_number base ds = Nat.ofDigits base (ds.map g).reverse := by
  have e : ds.map (fun c => (digit_value c).getD 0) = ds.map g :=
    List.map_congr_left h
  unfold digits_number
  rw [digits_number_foldl base (fun c => (digit_value c).getD 0) ds 0, e]
  simp

theorem leading_digits_self (base : Nat) (ds : List Char)
    (h : ∀ c ∈ ds, is_digit_of base c = true) : leading_digits base ds = ds := by
  unfold leading_digits
  exact List.takeWhile_eq_self_iff.mpr h

theorem is_digit_of_hex (c : Char) (h : is_hex_digit c = true) : is_digit_of 16 c = true := by
  obtain ⟨d, hd, hlt, _⟩ := digit_value_hex c h
  simp [is_digit_of, hd, hlt]

theorem is_digit_of_dec (c : Char) (h : is_dec_digit c = true) : is_digit_of 10 c = true := by
  have := (is_dec_digit_iff c).mp h
  simp only [is_digit_of, digit_value_dec c h, decide_eq_true_eq]
  omega

theorem narrowest_uint_ne_unknown (v : Nat) : narrowest_uint v ≠ unknown := by
  unfold narrowest_uint
  split_ifs <;> simp

theorem narrowest_sint_ne_unknown (v : Int) : narrowest_sint v ≠ unknown := by
  unfold narrowest_sint
  split_ifs <;> simp

theorem smallest_uint_type_hex (u : uninit) (ds : List Char) (hne : ds ≠ [])
    (hhex : ∀ c ∈ ds, is_hex_digit c = true) (hv : hex_number ds < 2 ^ 64) :
    smallest_uint_type u ds 16 = narrowest_uint (hex_number ds) := by
  have hp := leading_digits_self 16 ds (fun c hc => is_digit_of_hex c (hhex c hc))
  have hn : digits_number 16 ds = hex_number ds :=
    digits_number_eq 16 hex_digit_number ds (fun c hc => by
      obtain ⟨d, hd, _, he⟩ := digit_value_hex c (hhex c hc)
      rw [hd, Option.getD_some, he, hex_digit_number])
  have hl : ds.length ≠ 0 := by simpa using hne
  simp only [smallest_uint_type, from_chars_uint64, hp, hn, hl, if_false, hv, if_true,
    ne_eq, not_true_eq_false, narrowest_uint]
  rfl

theorem smallest_int_type_dec (u : uninit) (ds : List Char) (hne : ds ≠ [])
    (hdec : ∀ c ∈ ds, is_dec_digit c = true) (hv : dec_number ds ≤ 2 ^ 63 - 1) :
    smallest_int_type u ds = narrowest_sint (dec_number ds) := by
  have hp := leading_digits_self 10 ds (fun c hc => is_digit_of_dec c (hdec c hc))
  have hn : digits_number 10 ds = dec_number ds :=
    digits_number_eq 10 (fun c => c.toNat - 48) ds (fun c hc => by
      rw [digit_value_dec c (hdec c hc), Option.getD_some])
  have hl : ds.length ≠ 0 := by simpa using hne
  have hneg : (ds.head? == some '-') = false := by
    obtain ⟨c, cs, rfl⟩ := List.exists_cons_of_ne_nil hne
    have hc := (is_dec_digit_iff c).mp (hdec c (List.mem_cons_self _ _))
    have : c ≠ '-' := by
      rintro rfl
      exact absurd hc (by decide)
    simpa using this
  have hr : -(2 ^ 63 : Int) ≤ (dec_number ds : Int) ∧ (dec_number ds : Int) ≤ 2 ^ 63 - 1 := by
    constructor <;> omega
  simp only [smallest_int_type, from_chars_int64, hneg, Bool.false_eq_true, if_false, hp, hn,
    hl, hr, and_self, if_true, ne_eq, not_true_eq_false, narrowest_sint]
  rfl

theorem smallest_int_type_neg (u : uninit) (ds : List Char) (hne : ds ≠ [])
    (hdec : ∀ c ∈ ds, is_dec_digit c = true) (hv : dec_number ds ≤ 2 ^ 63) :
    smallest_int_type u ('-' :: ds) = narrowest_sint (-(dec_number ds : Int)) := by
  have hp := leading_digits_self 10 ds (fun c hc => is_digit_of_dec c (hdec c hc))
  have hn : digits_number 10 ds = dec_number ds :=
    digits_number_eq 10 (fun c => c.toNat - 48) ds (fun c hc => by
      rw [digit_value_dec c (hdec c hc), Option.getD_some])
  have hl : ds.length ≠ 0 := by simpa using hne
  have hr : -(2 ^ 63 : Int) ≤ -(dec_number ds : Int) ∧ -(dec_number ds : Int) ≤ 2 ^ 63 - 1 := by
    constructor <;> omega
  simp only [smallest_int_type, from_chars_int64, List.head?_cons, beq_self_eq_true, if_true,
    List.tail_cons, hp, hn, hl, if_false, hr, and_self, ne_eq, not_true_eq_false,
    List.length_cons, narrowest_sint]
  rfl

theorem dec_digit_beq_false (c d : Char) (hc : is_dec_digit c = true)
    (hd : is_dec_digit d = false) : (c == d) = false := by
  by_contra h
  simp only [Bool.not_eq_false, beq_iff_eq] at h
  rw [h, hd] at hc
  exact absurd hc (by simp)

/-- A range whose first character is none of the letters `T t F f Y y N n` fails the four
Boolean spelling tests, so `match_type` goes on to the numeric tests. -/
theorem match_type_of_head (u : uninit) (c : Char) (cs : List Char) (flags : csv_flags)
    (h : (c == 'T' || c == 't' || c == 'F' || c == 'f' || c == 'Y' || c == 'y' || c == 'N'
      || c == 'n') = false) :
    match_type u (c :: cs) flags = match_number u (c :: cs) := by
  simp only [Bool.or_eq_false_iff] at h
  obtain ⟨⟨⟨⟨⟨⟨⟨h1, h2⟩, h3⟩, h4⟩, h5⟩, h6⟩, h7⟩, h8⟩ := h
  have e0 : char_at (c :: cs) 0 = c := rfl
  rw [match_type_eq]
  simp [spells_true, spells_false, spells_yes, spells_no, e0, h1, h2, h3, h4, h5, h6, h7, h8]

theorem match_type_of_dec_head (u : uninit) (c : Char) (cs : List Char) (flags : csv_flags)
    (hc : is_dec_digit c = true) :
    match_type u (c :: cs) flags = match_number u (c :: cs) := by
  apply match_type_of_head
  rw [dec_digit_beq_false c 'T' hc (by decide), dec_digit_beq_false c 't' hc (by decide),
    dec_digit_beq_false c 'F' hc (by decide), dec_digit_beq_false c 'f' hc (by decide),
    dec_digit_beq_false c 'Y' hc (by decide), dec_digit_beq_false c 'y' hc (by decide),
    dec_digit_beq_false c 'N' hc (by decide), dec_digit_beq_false c 'n' hc (by decide)]
  rfl

theorem match_number_of_not_hex (u : uninit) (chars : List Char)
    (h : has_hex_lead chars = false) : match_number u chars = match_decimal u chars := by
  simp only [match_number, h, Bool.false_eq_true, if_false]

theorem match_decimal_of_not_plus (u : uninit) (first : List Char)
    (h : has_plus_lead first = false) :
    match_decimal u first = match_signed_or_float u first := by
  simp only [match_decimal, h, Bool.false_eq_true, if_false]

theorem match_decimal_of_plus (u : uninit) (first : List Char)
    (h : has_plus_lead first = true) (hl : (first.drop 1).length ≠ 0) :
    match_decimal u first = match_signed_or_float u (first.drop 1) := by
  simp only [match_decimal, h, if_true, hl, if_false]

/-! ### Ranges on which the uninitialized locals are not read

`std::from_chars` leaves `val` unmodified only when nothing matches, and then
`result.ptr` is not the end of a non-empty range, or when the number is out of range. A
range of at most eighteen characters holds no number out of range. -/

theorem digit_value_lt_of_is_digit (base : Nat) (c : Char) (h : is_digit_of base c = true) :
    (digit_value c).getD 0 < base := by
  unfold is_digit_of at h
  cases hd : digit_value c with
  | none => rw [hd] at h; exact absurd h (by simp)
  | some d =>
    rw [hd] at h
    simpa using h

theorem foldl_digits_lt (base : Nat) (ds : List Char)
    (h : ∀ c ∈ ds, is_digit_of base c = true) (acc : Nat) :
    ds.foldl (fun a ch => a * base + (digit_value ch).getD 0) acc + 1
      ≤ (acc + 1) * base ^ ds.length := by
  induction ds generalizing acc with
  | nil => simp
  | cons c cs ih =>
    have hc := digit_value_lt_of_is_digit base c (h c (List.mem_cons_self _ _))
    have h1 := ih (fun d hd => h d (List.mem_cons_of_mem _ hd))
      (acc * base + (digit_value c).getD 0)
    rw [List.foldl_cons, List.length_cons, pow_succ]
    calc _ ≤ (acc * base + (digit_value c).getD 0 + 1) * base ^ cs.length := h1
      _ ≤ ((acc + 1) * base) * base ^ cs.length := by
        apply Nat.mul_le_mul_right
        rw [Nat.add_mul, Nat.one_mul]
        omega
      _ = (acc + 1) * (base ^ cs.length * base) := by ring

theorem digits_number_lt (base : Nat) (ds : List Char)
    (h : ∀ c ∈ ds, is_digit_of base c = true) :
    digits_number base ds < base ^ ds.length := by
  have := foldl_digits_lt base ds h 0
  unfold digits_number
  omega

theorem leading_digits_number_lt (base : Nat) (s : List Char) (n : Nat) (hb : 0 < base)
    (hn : s.length ≤ n) :
    digits_number base (leading_digits base s) < base ^ n := by
  have h1 := digits_number_lt base (leading_digits base s)
    (fun c hc => List.mem_takeWhile_imp hc)
  have h2 : (leading_digits base s).length ≤ n :=
    le_trans (List.takeWhile_prefix _).length_le hn
  exact lt_of_lt_of_le h1 (Nat.pow_le_pow_right hb h2)

theorem smallest_uint_type_val_free (u1 u2 : uninit) (s : List Char) (hne : s.length ≠ 0)
    (hlen : s.length ≤ 16) :
    smallest_uint_type u1 s 16 = smallest_uint_type u2 s 16 := by
  have hlt : digits_number 16 (leading_digits 16 s) < 2 ^ 64 :=
    leading_digits_number_lt 16 s 16 (by decide) hlen
  unfold smallest_uint_type from_chars_uint64
  simp only []
  by_cases h0 : (leading_digits 16 s).length = 0
  · simp only [h0, if_true, ne_eq, Ne.symm hne, not_false_eq_true]
  · simp only [h0, if_false, hlt, if_true]

theorem smallest_int_type_val_free (u1 u2 : uninit) (s : List Char) (hne : s.length ≠ 0)
    (hlen : s.length ≤ 18) :
    smallest_int_type u1 s = smallest_int_type u2 s := by
  have hb : (if (s.head? == some '-') = true then s.tail else s).length ≤ 18 := by
    split
    · rw [List.length_tail]; omega
    · exact hlen
  have hlt := leading_digits_number_lt 10
    (if (s.head? == some '-') = true then s.tail else s) 18 (by decide) hb
  have hr : -(2 ^ 63 : Int) ≤
      (if (s.head? == some '-') = true then
        -(digits_number 10 (leading_digits 10
          (if (s.head? == some '-') = true then s.tail else s)) : Int)
      else (digits_number 10 (leading_digits 10
          (if (s.head? == some '-') = true then s.tail else s)) : Int))
      ∧ (if (s.head? == some '-') = true then
        -(digits_number 10 (leading_digits 10
          (if (s.head? == some '-') = true then s.tail else s)) : Int)
      else (digits_number 10 (leading_digits 10
          (if (s.head? == some '-') = true then s.tail else s)) : Int)) ≤ 2 ^ 63 - 1 := by
    have h18 : (10 : Nat) ^ 18 < 2 ^ 62 := by norm_num
    generalize digits_number 10 (leading_digits 10
      (if (s.head? == some '-') = true then s.tail else s)) = n at hlt
    split <;> constructor <;> omega
  unfold smallest_int_type from_chars_int64
  simp only []
  by_cases h0 : (leading_digits 10 (if (s.head? == some '-') = true then s.tail else s)).length = 0
  · simp only [h0, if_true, ne_eq, Ne.symm hne, not_false_eq_true]
  · simp only [h0, if_false, hr, and_self, if_true]

theorem match_signed_or_float_val_free (u1 u2 : uninit) (s : List Char) (hne : s.length ≠ 0)
    (hlen : s.length ≤ 18) :
    match_signed_or_float u1 s = match_signed_or_float u2 s := by
  unfold match_signed_or_float
  rw [smallest_int_type_val_free u1 u2 s hne hlen]

theorem match_decimal_val_free (u1 u2 : uninit) (s : List Char) (hne : s.length ≠ 0)
    (hlen : s.length ≤ 18) :
    match_decimal u1 s = match_decimal u2 s := by
  unfold match_decimal
  by_cases hp : has_plus_lead s = true
  · simp only [hp, if_true]
    by_cases h1 : (s.drop 1).length = 0
    · simp only [h1, if_true]
    · simp only [h1, if_false]
      exact match_signed_or_float_val_free u1 u2 _ h1 (by rw [List.length_drop]; omega)
  · simp only [hp, if_false, Bool.false_eq_true]
    exact match_signed_or_float_val_free u1 u2 s hne hlen

theorem match_number_val_free (u1 u2 : uninit) (s : List Char) (hne : s.length ≠ 0)
    (hlen : s.length ≤ 18) :
    match_number u1 s = match_number u2 s := by
  unfold match_number
  by_cases hh : has_hex_lead s = true
  · simp only [hh, if_true]
    by_cases h1 : (s.drop 2).length = 0
    · simp only [h1, if_true]
    · have hd : (s.drop 2).length ≤ 16 := by rw [List.length_drop]; omega
      simp only [h1, if_false]
      rw [smallest_uint_type_val_free u1 u2 _ h1 hd,
        match_decimal_val_free u1 u2 _ h1 (by omega)]
  · simp only [hh, if_false, Bool.false_eq_true]
    exact match_decimal_val_free u1 u2 s hne hlen

/-- On a range of at most eighteen characters the result of `match_type` does not depend
on what the uninitialized locals hold. -/
theorem val_independent_of_length_le (chars : List Char) (flags : csv_flags)
    (h : chars.length ≤ 18) : val_independent chars flags := by
  intro u1 u2
  rw [match_type_eq, match_type_eq]
  by_cases h0 : chars.length = 0
  · simp only [h0, if_true]
  · simp only [h0, if_false]
    rw [match_number_val_free u1 u2 chars h0 h]

theorem match_decimal_dec (u : uninit) (ds : List Char) (hne : ds ≠ [])
    (hdec : ∀ c ∈ ds, is_dec_digit c = true) (hv : dec_number ds ≤ 2 ^ 63 - 1) :
    match_signed_or_float u ds = narrowest_sint (dec_number ds) := by
  rw [match_signed_or_float, smallest_int_type_dec u ds hne hdec hv]
  simp only [ne_eq, narrowest_sint_ne_unknown, not_false_eq_true, if_true]

theorem match_number_dec (u : uninit) (ds : List Char) (hne : ds ≠ [])
    (hdec : ∀ c ∈ ds, is_dec_digit c = true) (hv : dec_number ds ≤ 2 ^ 63 - 1) :
    match_number u ds = narrowest_sint (dec_number ds) := by
  have hs := match_decimal_dec u ds hne hdec hv
  obtain ⟨c, cs, rfl⟩ := List.exists_cons_of_ne_nil hne
  have hc := hdec c (List.mem_cons_self _ _)
  have e0 : char_at (c :: cs) 0 = c := rfl
  have hplus : has_plus_lead (c :: cs) = false := by
    rw [has_plus_lead, e0, dec_digit_beq_false c '+' hc (by decide), Bool.and_false]
  have hhex : has_hex_lead (c :: cs) = false := by
    unfold has_hex_lead
    cases cs with
    | nil => simp
    | cons d ds =>
      have hd := hdec d (List.mem_cons_of_mem _ (List.mem_cons_self _ _))
      have e1 : char_at (c :: d :: ds) 1 = d := rfl
      rw [e1, dec_digit_beq_false d 'x' hd (by decide), dec_digit_beq_false d 'X' hd (by decide)]
      simp
  rw [match_number_of_not_hex u _ hhex, match_decimal_of_not_plus u _ hplus]
  exact hs

/-- The test `(flags & detect_yes_no_bool) == detect_yes_no_bool` of line 94 fails for
every flags value: `0x80` becomes `-128` as an `int8_t`, so the AND is `0` or `-128`,
never `0x80`. -/
theorem yes_no_test_false (flags : csv_flags) :
    flags_eq (op_and flags csv_flags.detect_yes_no_bool) csv_flags.detect_yes_no_bool
      = false := by
  have hb : flags % 256 < 256 := Nat.mod_lt _ (by norm_num)
  have e : static_cast_int8 csv_flags.detect_yes_no_bool = 0xFF80 := by decide
  unfold op_and flags_eq
  rw [e]
  unfold static_cast_int8
  generalize flags % 256 = b at hb
  split_ifs with h
  · have : b &&& 0xFF80 = 0 := by
      interval_cases b <;> rfl
    rw [this]
    decide
  · have : (b + 0xFF00) &&& 0xFF80 = 0xFF80 := by
      have h1 : 128 ≤ b := Nat.le_of_not_lt h
      interval_cases b <;> rfl
    rw [this]
    decide

theorem match_type_of_yes_no_only (u : uninit) (chars : List Char) (flags : csv_flags)
    (h0 : chars.length ≠ 0) (ht : (spells_true chars || spells_false chars) = false) :
    match_type u chars flags = match_number u chars := by
  rw [match_type_eq, yes_no_test_false, ht]
  simp only [h0, if_false, Bool.and_false, Bool.false_and, Bool.false_eq_true]

theorem dropWhile_append_of_all {p : Char → Bool} (pre r : List Char)
    (h : ∀ c ∈ pre, p c = true) : (pre ++ r).dropWhile p = r.dropWhile p := by
  induction pre with
  | nil => rfl
  | cons c cs ih =>
    have hc : p c = true := h c (List.mem_cons_self _ _)
    simp only [List.cons_append, List.dropWhile_cons, hc, if_true]
    exact ih (fun d hd => h d (List.mem_cons_of_mem _ hd))

theorem match_symbol_single (c q : Char) (r : List Char) :
    match_symbol (c :: r) [q] = (c == q) := by
  by_cases h : c = q
  · subst h
    cases r <;> simp [match_symbol]
  · simp [match_symbol, h]

section scan
variable (sep ws : List Char)

theorem scan_unquoted_cons (c : Char) (cs : List Char) (pos last : Nat) :
    scan_unquoted sep ws (c :: cs) pos last
      = if match_any_char c sep then (last, c :: cs)
        else scan_unquoted sep ws cs (pos + 1)
          (if !match_any_char c ws then pos + 1 else last) := rfl

theorem scan_unquoted_stop (r : List Char) (pos last : Nat)
    (hr : ∀ c, r.head? = some c → match_any_char c sep = true) :
    scan_unquoted sep ws r pos last = (last, r) := by
  cases r with
  | nil => rfl
  | cons c cs =>
    have := hr c rfl
    simp [scan_unquoted, this]

theorem scan_unquoted_pad (post r : List Char) (pos last : Nat)
    (hsep : ∀ c ∈ post, match_any_char c sep = false)
    (hws : ∀ c ∈ post, match_any_char c ws = true) :
    scan_unquoted sep ws (post ++ r) pos last
      = scan_unquoted sep ws r (pos + post.length) last := by
  induction post generalizing pos with
  | nil => rfl
  | cons c cs ih =>
    have h1 := hsep c (List.mem_cons_self _ _)
    have h2 := hws c (List.mem_cons_self _ _)
    rw [List.cons_append, scan_unquoted_cons, h1, h2]
    simp only [Bool.false_eq_true, if_false, Bool.not_true, List.length_cons]
    rw [ih (pos + 1) (fun d hd => hsep d (List.mem_cons_of_mem _ hd))
      (fun d hd => hws d (List.mem_cons_of_mem _ hd))]
    congr 1
    omega

theorem scan_unquoted_field (f r : List Char) (pos last : Nat) (hf : f ≠ [])
    (hsep : ∀ c ∈ f, match_any_char c sep = false)
    (hlast : ∀ c, f.getLast? = some c → match_any_char c ws = false) :
    scan_unquoted sep ws (f ++ r) pos last
      = scan_unquoted sep ws r (pos + f.length) (pos + f.length) := by
  induction f generalizing pos last with
  | nil => exact absurd rfl hf
  | cons c cs ih =>
    have h1 := hsep c (List.mem_cons_self _ _)
    rw [List.cons_append, scan_unquoted_cons, h1]
    simp only [Bool.false_eq_true, if_false, List.length_cons]
    cases cs with
    | nil =>
      have h2 := hlast c rfl
      simp [h2]
    | cons d ds =>
      rw [ih (pos + 1) _ (by simp) (fun e he => hsep e (List.mem_cons_of_mem _ he))
        (fun e he => hlast e (by simpa [List.getLast?_cons_cons] using he))]
      simp only [List.length_cons]
      congr 1 <;> omega
end scan

theorem eval_fields_nil (us : Nat → uninit) (sep ql qt ws : List Char) (flags : csv_flags) (k : Nat) :
    eval_fields us sep ql qt ws flags k [] = scan_result.types [] := by
  cases k <;> simp [eval_fields]

theorem eval_fields_succ (us : Nat → uninit) (sep ql qt ws : List Char) (flags : csv_flags) (k : Nat)
    (fld : List Char) (h : fld ≠ []) :
    eval_fields us sep ql qt ws flags (k + 1) fld =
      (let fld1 := fld.dropWhile (fun ch => match_any_char ch ws)
        if fld1.length = 0 then scan_result.types [unknown]
        else if match_symbol fld1 ql then
          if fld1.length < ql.length then scan_result.overrun
          else
            let first := fld1.drop ql.length
            let fld2 := find_trail qt first
            let t := match_type (us 0) (first.take (first.length - fld2.length)) flags
            if fld2.length = 0 then scan_result.types [t]
            else if fld2.length < qt.length then scan_result.overrun
            else
              let fld3 := (fld2.drop qt.length).dropWhile
                (fun ch => !match_any_char ch sep)
              let fld4 := if fld3.length ≠ 0 then fld3.drop 1 else fld3
              (eval_fields (later_calls us) sep ql qt ws flags k fld4).push t
        else
          let r := scan_unquoted sep ws fld1 0 0
          let t := match_type (us 0) (fld1.take r.1) flags
          let fld2 := if r.2.length ≠ 0 then r.2.drop 1 else r.2
          (eval_fields (later_calls us) sep ql qt ws flags k fld2).push t) := by
  have : fld.length ≠ 0 := by simpa using h
  rw [eval_fields]
  simp only [this, if_false]

theorem match_type_nil (u : uninit) (flags : csv_flags) : match_type u [] flags = unknown := by
  simp [match_type]

theorem dropWhile_stop {p : Char → Bool} (r : List Char)
    (h : ∀ c, r.head? = some c → p c = false) : r.dropWhile p = r := by
  cases r with
  | nil => rfl
  | cons c cs => simp [List.dropWhile_cons, h c rfl]

theorem eval_fields_unquoted_step (us : Nat → uninit) (sep qt ws : List Char) (q : Char)
    (flags : csv_flags) (k : Nat) (x : padded_field) (r : List Char)
    (hdisj : ∀ c ∈ sep, match_any_char c ws = false)
    (hq : match_any_char q sep = false)
    (hx : unquoted_field sep ws q x)
    (hr : ∀ c, r.head? = some c → match_any_char c sep = true)
    (hne : x.text ++ r ≠ []) :
    eval_fields us sep [q] qt ws flags (k + 1) (x.text ++ r)
      = (eval_fields (later_calls us) sep [q] qt ws flags k (r.drop 1)).push (match_type (us 0) x.f flags) := by
  obtain ⟨hpre, hpost, hf, hhead, hlast⟩ := hx
  rw [eval_fields_succ _ _ _ _ _ _ _ _ hne]
  have hdisj : ∀ c, match_any_char c sep = true → match_any_char c ws = false := by
    intro c hc
    simp only [match_any_char, List.any_eq_true, beq_iff_eq] at hc
    obtain ⟨d, hd, rfl⟩ := hc
    exact hdisj c hd
  have hrws : ∀ c, r.head? = some c → match_any_char c ws = false :=
    fun c hc => hdisj c (hr c hc)
  by_cases hfe : x.f = []
  · -- blank field
    have h1 : (x.text ++ r).dropWhile (fun ch => match_any_char ch ws) = r := by
      rw [padded_field.text, hfe, List.append_nil, List.append_assoc,
        dropWhile_append_of_all _ _ hpre, dropWhile_append_of_all _ _ hpost]
      exact dropWhile_stop r hrws
    simp only [h1, hfe]
    cases r with
    | nil => simp [eval_fields_nil, match_type_nil, scan_result.push]
    | cons c cs =>
      have hc : match_any_char c sep = true := hr c rfl
      have hcq : (c == q) = false := by
        by_contra hcon
        simp at hcon
        rw [hcon] at hc
        simp [hq] at hc
      rw [match_symbol_single, hcq, scan_unquoted_stop sep ws _ _ _ hr]
      simp
  · obtain ⟨c, cs, hcs⟩ := List.exists_cons_of_ne_nil hfe
    have h1 : (x.text ++ r).dropWhile (fun ch => match_any_char ch ws)
        = x.f ++ (x.post ++ r) := by
      rw [padded_field.text, List.append_assoc, List.append_assoc,
        dropWhile_append_of_all _ _ hpre]
      apply dropWhile_stop
      intro d hd
      apply hhead
      rw [hcs] at hd ⊢
      simpa using hd
    have hcq : (c == q) = false := by
      have := (hf c (by rw [hcs]; exact List.mem_cons_self _ _)).2
      simpa using this
    have h2 : scan_unquoted sep ws (x.f ++ (x.post ++ r)) 0 0 = (x.f.length, r) := by
      rw [scan_unquoted_field sep ws _ _ _ _ hfe (fun d hd => (hf d hd).1) hlast,
        scan_unquoted_pad sep ws _ _ _ _
          (fun d hd => by
            have := hpost d hd
            by_contra hcon
            simp at hcon
            rw [hdisj d hcon] at this
            exact absurd this (by simp)) hpost,
        scan_unquoted_stop sep ws _ _ _ hr]
      simp
    have h3 : match_symbol (x.f ++ (x.post ++ r)) [q] = false := by
      rw [hcs, List.cons_append, match_symbol_single, hcq]
    simp only [h1, h2, h3]
    have h4 : (x.f ++ (x.post ++ r)).length ≠ 0 := by
      rw [hcs]; simp
    simp only [h4, if_false, Bool.false_eq_true, List.take_left']
    cases r <;> simp

theorem join_fields_ne_nil (segs : List (padded_field × Char)) (last : padded_field)
    (h : last.f ≠ []) : join_fields segs last ≠ [] := by
  cases segs with
  | nil => simp [join_fields, padded_field.text, h]
  | cons p ps => simp [join_fields]

theorem eval_fields_unquoted (us : Nat → uninit) (u : uninit) (sep qt ws : List Char) (q : Char)
    (flags : csv_flags) (segs : List (padded_field × Char)) (last : padded_field)
    (hdisj : ∀ c ∈ sep, match_any_char c ws = false)
    (hq : match_any_char q sep = false)
    (hsegs : ∀ p ∈ segs, unquoted_field sep ws q p.1 ∧ match_any_char p.2 sep = true)
    (hlast : unquoted_field sep ws q last) (hne : last.f ≠ [])
    (hval : ∀ p ∈ segs, val_independent p.1.f flags)
    (hval_last : val_independent last.f flags) (fuel : Nat)
    (hfuel : (join_fields segs last).length ≤ fuel) :
    eval_fields us sep [q] qt ws flags fuel (join_fields segs last)
      = scan_result.types (segs.map (fun p => match_type u p.1.f flags)
          ++ [match_type u last.f flags]) := by
  induction segs generalizing fuel us with
  | nil =>
    have hl : 0 < (join_fields [] last).length :=
      List.length_pos.mpr (join_fields_ne_nil [] last hne)
    obtain ⟨k, rfl⟩ : ∃ k, fuel = k + 1 := ⟨fuel - 1, by omega⟩
    have h := eval_fields_unquoted_step us sep qt ws q flags k last [] hdisj hq hlast
      (by simp) (by simpa [join_fields] using join_fields_ne_nil [] last hne)
    simp only [List.append_nil] at h
    simp only [join_fields, h, List.drop_nil, eval_fields_nil, scan_result.push, List.map_nil,
      List.nil_append, hval_last (us 0) u]
  | cons p ps ih =>
    obtain ⟨x, c⟩ := p
    have hp := hsegs (x, c) (List.mem_cons_self _ _)
    have hx : match_type (us 0) x.f flags = match_type u x.f flags :=
      hval (x, c) (List.mem_cons_self _ _) (us 0) u
    have hlen : (join_fields ((x, c) :: ps) last).length
        = x.text.length + 1 + (join_fields ps last).length := by
      simp [join_fields]
      omega
    obtain ⟨k, rfl⟩ : ∃ k, fuel = k + 1 := ⟨fuel - 1, by omega⟩
    have h := eval_fields_unquoted_step us sep qt ws q flags k x (c :: join_fields ps last)
      hdisj hq hp.1 (by simpa using hp.2) (by simp)
    have ih' := ih (later_calls us) (fun p hp => hsegs p (List.mem_cons_of_mem _ hp))
      (fun p hp => hval p (List.mem_cons_of_mem _ hp)) k (by omega)
    simp only [List.drop_succ_cons, List.drop_zero] at h
    simp only [join_fields, h, ih', hx, scan_result.push, List.map_cons, List.cons_append]

/-! ## The test suite (`csv_test.cpp`) on the embedding -/

theorem test_match_type (u : uninit) :
    match_type u "".toList test_flags = unknown
      ∧ match_type u "true".toList test_flags = boolean
      ∧ match_type u "TRUE".toList test_flags = boolean
      ∧ match_type u "false".toList test_flags = boolean
      ∧ match_type u "FALSE".toList test_flags = boolean
      ∧ match_type u "0x0A".toList test_flags = uint8
      ∧ match_type u "0xFFFF".toList test_flags = uint16
      ∧ match_type u "0".toList test_flags = int8
      ∧ match_type u "-1000".toList test_flags = int16
      ∧ match_type u "+1000".toList test_flags = int16
      ∧ match_type u "3.123".toList test_flags = float64
      ∧ match_type u "3e123".toList test_flags = float64 :=
  ⟨rfl, rfl, rfl, rfl, rfl, rfl, rfl, rfl, rfl, rfl, rfl, rfl⟩

theorem test_eval_line_types (us : Nat → uninit) :
    eval_line_types us "".toList [','] ['"'] ['"'] [' ', '\t'] test_flags
        = scan_result.types [unknown]
      ∧ eval_line_types us "abc".toList [','] ['"'] ['"'] [' ', '\t'] test_flags
        = scan_result.types [string]
      ∧ eval_line_types us "\"xyz\"".toList [','] ['"'] ['"'] [' ', '\t'] test_flags
        = scan_result.types [string]
      ∧ eval_line_types us "123".toList [','] ['"'] ['"'] [' ', '\t'] test_flags
        = scan_result.types [int8]
      ∧ eval_line_types us "3.".toList [','] ['"'] ['"'] [' ', '\t'] test_flags
        = scan_result.types [float64]
      ∧ eval_line_types us "0xffff".toList [','] ['"'] ['"'] [' ', '\t'] test_flags
        = scan_result.types [uint16]
      ∧ eval_line_types us "1, 2.3, \"abc\", 0x00".toList [','] ['"'] ['"'] [' ', '\t']
        test_flags = scan_result.types [int8, float64, string, uint8] :=
  ⟨rfl, rfl, rfl, rfl, rfl, rfl, rfl⟩

theorem test_accum_line_types :
    accum_line_types [int8, int8, int8, int8, int8] [uint64, boolean, float64, string, unknown]
        = ([int64, string, float64, string, int8], false)
      ∧ accum_line_types [uint8, uint8, uint8, uint8, uint8]
          [uint64, boolean, float64, string, unknown]
        = ([uint64, string, float64, string, uint8], false)
      ∧ accum_line_types [string, float64] [string, float64, unknown]
        = ([string, float64, unknown], false)
      ∧ accum_line_types [string, float64] [string] = ([string, float64], false) := by
  decide

/-! ## The type accumulator: unsigned accumulated, signed observed

In the mixed-signedness branch of `accum_line_types` (line 274) the new width is
`max(sint_bits(afld), uint_bits(lfld))`. When the accumulated type is unsigned and the
observed type is signed both operands are `0`, `make_sint(0)` runs into its `default:`
branch, `assert(false)` is reached and the column is set to `unknown`. -/

/-- C1 (line order): the two lines `[uint8]` and `[int8]` folded from the empty
accumulator give `[unknown]`, with `assert(false)` reached, in one order and `[int8]` in
the other: the result of the fold is not the same for every permutation of the lines. -/
theorem accum_lines_order_dependent :
    List.Perm [[uint8], [int8]] [[int8], [uint8]]
      ∧ accum_lines [[uint8], [int8]] = ([unknown], true)
      ∧ accum_lines [[int8], [uint8]] = ([int8], false) :=
  ⟨List.Perm.swap _ _ _, by decide, by decide⟩

/-- C2 (commutativity, associativity): column 0 after `accum_line_types([int8], [uint8])`
is `int8`, after `accum_line_types([uint8], [int8])` it is `unknown`; and with `A = uint8`,
`B = C = int8` merging `A` with `B` and then `C` ends in `int8`, while merging `A` with the
merge of `B` and `C` ends in `unknown`. Apart from that defect the merge is as claimed: two
types of the specification that are not a signed and an unsigned integer type commute,
and every three types associate when none of the four merges reaches `assert(false)`. -/
theorem accum_column_not_commutative :
    accum_line_types [int8] [uint8] = ([int8], false)
      ∧ accum_line_types [uint8] [int8] = ([unknown], true)
      ∧ accum_line_types (accum_line_types [uint8] [int8]).1 [int8] = ([int8], false)
      ∧ accum_line_types [uint8] (accum_line_types [int8] [int8]).1 = ([unknown], true)
      ∧ (∀ a l : csv_type, (is_spec_type a && is_spec_type l) = false
          ∨ (is_sint a && is_uint l) = true ∨ (is_uint a && is_sint l) = true
          ∨ accum_line_types [a] [l] = accum_line_types [l] [a])
      ∧ ∀ a b c : csv_type,
          ((accum_line_types [a] [b]).2 || (accum_line_types (accum_line_types [a] [b]).1 [c]).2
            || (accum_line_types [b] [c]).2
            || (accum_line_types [a] (accum_line_types [b] [c]).1).2) = true
          ∨ accum_line_types (accum_line_types [a] [b]).1 [c]
            = accum_line_types [a] (accum_line_types [b] [c]).1 := by
  refine ⟨by decide, by decide, by decide, by decide, fun a l => ?_, fun a b c => ?_⟩
  · cases a <;> cases l <;> decide
  · cases a <;> cases b <;> cases c <;> decide

/-- C3 (no assertion is reached): `accum_line_types([uint8], [int8])` reaches
`assert(false)`; for one column the assertion is reached exactly when the accumulated
type is an unsigned integer type and the observed type a signed one. -/
theorem accum_line_types_reaches_assert :
    (accum_line_types [uint8] [int8]).2 = true
      ∧ ∀ afld lfld : csv_type,
          (accum_line_types [afld] [lfld]).2 = (is_uint afld && is_sint lfld) := by
  refine ⟨by decide, fun afld lfld => ?_⟩
  cases afld <;> cases lfld <;> rfl

/-- C4 (mixed signedness): for a signed integer type `s` and an unsigned integer type `t`,
accumulated `s` with observed `t` gives a signed integer type at least as wide as both,
but accumulated `t` with observed `s` gives `unknown` and reaches `assert(false)`. -/
theorem accum_unsigned_then_signed (s t : csv_type) (hs : is_sint s = true)
    (ht : is_uint t = true) :
    accum_line_types [t] [s] = ([unknown], true)
      ∧ ∃ r, accum_line_types [s] [t] = ([r], false) ∧ is_sint r = true
          ∧ sint_bits s ≤ sint_bits r ∧ uint_bits t ≤ sint_bits r := by
  cases s <;> first
    | exact absurd hs (by decide)
    | (cases t <;> first
        | exact absurd ht (by decide)
        | exact ⟨by decide, _, rfl, by decide, by decide, by decide⟩)

/-- Witness of C4 at `s = int8`, `t = uint64`. -/
theorem accum_unsigned_then_signed_witness :
    is_sint int8 = true ∧ is_uint uint64 = true
      ∧ accum_line_types [uint64] [int8] = ([unknown], true)
      ∧ ∃ r, accum_line_types [int8] [uint64] = ([r], false) ∧ is_sint r = true
          ∧ sint_bits int8 ≤ sint_bits r ∧ uint_bits uint64 ≤ sint_bits r :=
  ⟨by decide, by decide,
    (accum_unsigned_then_signed int8 uint64 (by decide) (by decide)).1,
    (accum_unsigned_then_signed int8 uint64 (by decide) (by decide)).2⟩

/-- C10 (monotonicity): accumulated `uint8` with observed `int8` leaves the column
`unknown`, of lower rank than `uint8`; for every other pair of types than unsigned
accumulated with signed observed the rank does not decrease, and neither does the width
when both the accumulated and the merged type are integer types. -/
theorem accum_column_rank_drop :
    accum_line_types [uint8] [int8] = ([unknown], true)
      ∧ lattice_rank unknown < lattice_rank uint8
      ∧ ∀ afld lfld : csv_type, (is_uint afld && is_sint lfld) = true
          ∨ (lattice_rank afld ≤ lattice_rank (accum_column afld lfld).1
            ∧ ((is_int afld && is_int (accum_column afld lfld).1) = true →
              int_bits afld ≤ int_bits (accum_column afld lfld).1)) := by
  refine ⟨by decide, by decide, fun afld lfld => ?_⟩
  cases afld <;> cases lfld <;> decide

/-! ## The field classifier -/

/-- C5 (yes/no): whatever the flags, `match_type` returns `string`, not `boolean`, for
every upper/lower-case spelling of `yes` and of `no`: `operator&` converts its operands to
`int8_t`, which turns `detect_yes_no_bool = 0x80` into `-128`, so the test
`(flags & detect_yes_no_bool) == detect_yes_no_bool` never succeeds. -/
theorem match_type_yes_no (u : uninit) (flags : csv_flags) (chars : List Char)
    (h : chars ∈ yes_no_spellings) : match_type u chars flags = string := by
  simp only [yes_no_spellings, List.mem_cons, List.mem_singleton, List.not_mem_nil,
    or_false] at h
  rcases h with h | h | h | h | h | h | h | h | h | h | h | h <;> subst h <;>
    exact (match_type_of_yes_no_only u _ flags (by decide) (by decide)).trans rfl

/-- Witness of C5 at `yes` with the flags `detect_true_false_bool | detect_yes_no_bool`. -/
theorem match_type_yes_no_witness :
    "yes".toList ∈ yes_no_spellings ∧ match_type ⟨0, 0⟩ "yes".toList test_flags = string :=
  ⟨by decide, match_type_yes_no _ _ _ (by decide)⟩

/-- C7 (hexadecimal): for `0x` or `0X` followed by one or more hexadecimal digits whose
value is at most `2^64 - 1`, `match_type` returns the narrowest unsigned integer type that
contains the value, whatever the flags. -/
theorem match_type_hex (u : uninit) (flags : csv_flags) (x : Char) (ds : List Char)
    (hx : x = 'x' ∨ x = 'X') (hne : ds ≠ []) (hhex : ∀ c ∈ ds, is_hex_digit c = true)
    (hv : hex_number ds ≤ 2 ^ 64 - 1) :
    match_type u ('0' :: x :: ds) flags = narrowest_uint (hex_number ds) := by
  rw [match_type_of_head u '0' (x :: ds) flags (by decide)]
  have hl : ds.length ≠ 0 := by simpa using hne
  have hs := smallest_uint_type_hex u ds hne hhex (by omega)
  have hp : has_hex_lead ('0' :: x :: ds) = true := by
    rcases hx with rfl | rfl <;> simp [has_hex_lead, char_at]
  have hd : ('0' :: x :: ds).drop 2 = ds := rfl
  rw [match_number, hp, hd, hs]
  simp only [if_true, hl, if_false, ne_eq, narrowest_uint_ne_unknown, not_false_eq_true]

/-- Witness of C7 at `0XfFfF`, of value `65535`. -/
theorem match_type_hex_witness :
    ('X' = 'x' ∨ 'X' = 'X') ∧ "fFfF".toList ≠ []
      ∧ (∀ c ∈ "fFfF".toList, is_hex_digit c = true)
      ∧ hex_number "fFfF".toList ≤ 2 ^ 64 - 1
      ∧ hex_number "fFfF".toList = 65535
      ∧ match_type ⟨0, 0⟩ "0XfFfF".toList test_flags = narrowest_uint 65535
      ∧ narrowest_uint 65535 = uint16 :=
  ⟨by decide, by decide, by decide, by decide, by decide,
    match_type_hex ⟨0, 0⟩ test_flags 'X' "fFfF".toList (by decide) (by decide) (by decide)
      (by decide), by decide⟩

/-- C8 (hexadecimal lead, remainder not hexadecimal): `0x-5` and `0X+5` are classified
`int8` and `0x1.5` is classified `float64`, not `string`: when the hexadecimal parse
fails the cursor stays behind the `0x` and the decimal tests run on the remainder. The
isolated `0x` and `0xg` are classified `string`. -/
theorem match_type_hex_lead_then_decimal (u : uninit) (flags : csv_flags) :
    match_type u "0x-5".toList flags = int8
      ∧ match_type u "0X+5".toList flags = int8
      ∧ match_type u "0x1.5".toList flags = float64
      ∧ match_type u "0x".toList flags = string
      ∧ match_type u "0xg".toList flags = string :=
  ⟨(match_type_of_head u '0' _ flags (by decide)).trans rfl,
   (match_type_of_head u '0' _ flags (by decide)).trans rfl,
   (match_type_of_head u '0' _ flags (by decide)).trans rfl,
   (match_type_of_head u '0' _ flags (by decide)).trans rfl,
   (match_type_of_head u '0' _ flags (by decide)).trans rfl⟩

/-- C9 (decimal): for one or more decimal digits `ds` of value `n`, whatever the flags:
if `n ≤ 2^63 - 1` then `ds` is classified as the narrowest signed integer type that
contains `n`, and `+ds` is classified the same; if `n ≤ 2^63` then `-ds` is classified as
the narrowest signed integer type that contains `-n`. The narrowest signed type is a
signed integer type, never an unsigned one. -/
theorem match_type_decimal (u : uninit) (flags : csv_flags) (ds : List Char) (hne : ds ≠ [])
    (hdec : ∀ c ∈ ds, is_dec_digit c = true) :
    (dec_number ds ≤ 2 ^ 63 - 1 →
      match_type u ds flags = narrowest_sint (dec_number ds)
      ∧ match_type u ('+' :: ds) flags = match_type u ds flags)
    ∧ (dec_number ds ≤ 2 ^ 63 →
      match_type u ('-' :: ds) flags = narrowest_sint (-(dec_number ds : Int)))
    ∧ ∀ v : Int, is_sint (narrowest_sint v) = true ∧ is_uint (narrowest_sint v) = false := by
  have hl : ds.length ≠ 0 := by simpa using hne
  have hplain : dec_number ds ≤ 2 ^ 63 - 1 →
      match_type u ds flags = narrowest_sint (dec_number ds) := by
    intro hv
    obtain ⟨c, cs, rfl⟩ := List.exists_cons_of_ne_nil hne
    rw [match_type_of_dec_head u c cs flags (hdec c (List.mem_cons_self _ _))]
    exact match_number_dec u (c :: cs) hne hdec hv
  refine ⟨fun hv => ⟨hplain hv, ?_⟩, fun hv => ?_, fun v => ?_⟩
  · rw [hplain hv, match_type_of_head u '+' ds flags (by decide)]
    have hs := match_decimal_dec u ds hne hdec hv
    have h1 : has_hex_lead ('+' :: ds) = false := by
      simp [has_hex_lead, char_at]
    have h2 : has_plus_lead ('+' :: ds) = true := by
      simp [has_plus_lead, char_at]
    rw [match_number_of_not_hex u _ h1, match_decimal_of_plus u _ h2 hl]
    exact hs
  · rw [match_type_of_head u '-' ds flags (by decide)]
    have hs := smallest_int_type_neg u ds hne hdec hv
    have h1 : has_hex_lead ('-' :: ds) = false := by
      simp [has_hex_lead, char_at]
    have h2 : has_plus_lead ('-' :: ds) = false := by
      simp [has_plus_lead, char_at]
    rw [match_number_of_not_hex u _ h1, match_decimal_of_not_plus u _ h2,
      match_signed_or_float, hs]
    simp only [ne_eq, narrowest_sint_ne_unknown, not_false_eq_true, if_true]
  · unfold narrowest_sint
    split_ifs <;> exact ⟨rfl, rfl⟩

/-- Witness of C9 at the digits `1000`: `1000` and `+1000` and `-1000` are `int16`. -/
theorem match_type_decimal_witness :
    "1000".toList ≠ [] ∧ (∀ c ∈ "1000".toList, is_dec_digit c = true)
      ∧ dec_number "1000".toList = 1000
      ∧ match_type ⟨0, 0⟩ "1000".toList test_flags = narrowest_sint 1000
      ∧ match_type ⟨0, 0⟩ "+1000".toList test_flags = match_type ⟨0, 0⟩ "1000".toList test_flags
      ∧ match_type ⟨0, 0⟩ "-1000".toList test_flags = narrowest_sint (-1000)
      ∧ narrowest_sint 1000 = int16 ∧ narrowest_sint (-1000) = int16 :=
  ⟨by decide, by decide, by decide,
    ((match_type_decimal ⟨0, 0⟩ test_flags "1000".toList (by decide) (by decide)).1
      (by decide)).1,
    ((match_type_decimal ⟨0, 0⟩ test_flags "1000".toList (by decide) (by decide)).1
      (by decide)).2,
    (match_type_decimal ⟨0, 0⟩ test_flags "1000".toList (by decide) (by decide)).2.1
      (by decide),
    by decide, by decide⟩

/-! ## The line tokenizer -/

/-- C6, as stated, fails at two inputs. With `,` as separator and as quote-lead symbol,
the fields `1`, blank and `2` satisfy the conditions, and `eval_line_types` of `1,,2` is
`[int8, int8]` whatever the uninitialized locals hold, not the vector
`[int8, unknown, int8]` of the types of the three fields: the second separator is read as
an opening quote. With the usual symbols, the single field of twenty nines satisfies the
conditions, and `eval_line_types` gives `[int8]` when the local `val` of its call holds
`0` while a call of `match_type` whose `val` holds `1000` gives `int16`. -/
theorem unquoted_quote_separator_counterexample :
    (∀ c ∈ [','], match_any_char c [' ', '\t'] = false)
      ∧ (∀ p ∈ blank_segs, unquoted_field [','] [' ', '\t'] ',' p.1
          ∧ match_any_char p.2 [','] = true)
      ∧ unquoted_field [','] [' ', '\t'] ',' blank_last ∧ blank_last.f ≠ []
      ∧ join_fields blank_segs blank_last = "1,,2".toList
      ∧ (∀ us : Nat → uninit,
          eval_line_types us (join_fields blank_segs blank_last) [','] [','] ['"']
            [' ', '\t'] test_flags = scan_result.types [int8, int8])
      ∧ (∀ u : uninit, blank_segs.map (fun p => match_type u p.1.f test_flags)
          ++ [match_type u blank_last.f test_flags] = [int8, unknown, int8])
      ∧ unquoted_field [','] [' ', '\t'] '"' nines_field ∧ nines_field.f ≠ []
      ∧ eval_line_types zero_calls (join_fields [] nines_field) [','] ['"'] ['"']
          [' ', '\t'] test_flags = scan_result.types [int8]
      ∧ [match_type ⟨1000, 0⟩ nines_field.f test_flags] = [int16] :=
  ⟨by decide, by decide, by decide, by decide, by decide, fun _ => rfl, fun _ => rfl,
    by decide, by decide, by decide, by decide⟩

/-- C6, amended (the quote-lead character is not a separator character, and the types of
the fields do not depend on uninitialized memory): let the separator set and the
whitespace set be disjoint, the quote-lead symbol be the single character `q`, and `q`
not be a separator character. For padded fields, each free of separator characters and
of `q`, neither beginning nor ending with a whitespace character, padded with whitespace
characters and followed by a separator character, and a last such field that is not
empty, all of them fields on which the result of `match_type` does not depend on what the
uninitialized locals `val` hold (as are all fields of at most eighteen characters, see
`val_independent_of_length_le`), `eval_line_types` of the line they make returns the
types `match_type` gives to the fields, in order (a blank field gives `unknown`),
whatever the locals hold in the calls of the run (`us`) and in the separate calls of
`match_type` (`u`). -/
theorem eval_line_types_unquoted (us : Nat → uninit) (u : uninit) (sep qt ws : List Char)
    (q : Char) (flags : csv_flags) (segs : List (padded_field × Char)) (last : padded_field)
    (hdisj : ∀ c ∈ sep, match_any_char c ws = false)
    (hq : match_any_char q sep = false)
    (hsegs : ∀ p ∈ segs, unquoted_field sep ws q p.1 ∧ match_any_char p.2 sep = true)
    (hlast : unquoted_field sep ws q last) (hne : last.f ≠ [])
    (hval : ∀ p ∈ segs, val_independent p.1.f flags)
    (hval_last : val_independent last.f flags) :
    eval_line_types us (join_fields segs last) sep [q] qt ws flags
      = scan_result.types (segs.map (fun p => match_type u p.1.f flags)
          ++ [match_type u last.f flags]) := by
  have h0 : (join_fields segs last).length ≠ 0 := by
    simpa using join_fields_ne_nil segs last hne
  rw [eval_line_types, if_neg h0]
  exact eval_fields_unquoted us u sep qt ws q flags segs last hdisj hq hsegs hlast hne hval
    hval_last _ le_rfl

theorem sample_segs_val_independent :
    ∀ p ∈ sample_segs, val_independent p.1.f test_flags := by
  intro p hp
  simp only [sample_segs, List.mem_cons, List.mem_singleton, List.not_mem_nil,
    or_false] at hp
  rcases hp with rfl | rfl <;> exact fun _ _ => rfl

theorem sample_last_val_independent : val_independent sample_last.f test_flags :=
  fun _ _ => rfl

/-- Witness of C6 (amended) at the line `1, 2.3, 0x00` of the test suite, the locals
holding `0` in the calls of the run and `1000` and `7` in the separate calls. -/
theorem eval_line_types_unquoted_witness :
    (∀ c ∈ [','], match_any_char c [' ', '\t'] = false)
      ∧ match_any_char '"' [','] = false
      ∧ (∀ p ∈ sample_segs, unquoted_field [','] [' ', '\t'] '"' p.1
          ∧ match_any_char p.2 [','] = true)
      ∧ unquoted_field [','] [' ', '\t'] '"' sample_last ∧ sample_last.f ≠ []
      ∧ (∀ p ∈ sample_segs, val_independent p.1.f test_flags)
      ∧ val_independent sample_last.f test_flags
      ∧ join_fields sample_segs sample_last = "1, 2.3, 0x00".toList
      ∧ eval_line_types zero_calls (join_fields sample_segs sample_last) [','] ['"'] ['"']
          [' ', '\t'] test_flags
        = scan_result.types (sample_segs.map (fun p => match_type ⟨1000, 7⟩ p.1.f test_flags)
            ++ [match_type ⟨1000, 7⟩ sample_last.f test_flags])
      ∧ sample_segs.map (fun p => match_type ⟨1000, 7⟩ p.1.f test_flags)
          ++ [match_type ⟨1000, 7⟩ sample_last.f test_flags] = [int8, float64, uint8] :=
  ⟨by decide, by decide, by decide, by decide, by decide, sample_segs_val_independent,
    sample_last_val_independent, by decide,
    eval_line_types_unquoted zero_calls ⟨1000, 7⟩ [','] ['"'] [' ', '\t'] '"' test_flags
      sample_segs sample_last (by decide) (by decide) (by decide) (by decide) (by decide)
      sample_segs_val_independent sample_last_val_independent,
    by decide⟩

/-! ## The type accumulator, column by column

`accum_line_types` merges the first columns of the two vectors and goes on with the rest:
the three equations `accum_line_types_nil_left`, `accum_line_types_nil_right` and
`accum_line_types_cons` describe it completely. -/

theorem accum_step_shift (y : csv_type) (l : csv_type_vector) (h : csv_type)
    (xs : List Nat) (t : csv_type_vector) (f : Bool) :
    xs.foldl (fun s i => accum_step (y :: l) s (i + 1)) (h :: t, f)
      = (h :: (xs.foldl (accum_step l) (t, f)).1, (xs.foldl (accum_step l) (t, f)).2) := by
  induction xs generalizing t f with
  | nil => rfl
  | cons i is ih =>
    simp only [List.foldl_cons]
    have e : accum_step (y :: l) (h :: t, f) (i + 1)
        = (h :: (accum_step l (t, f) i).1, (accum_step l (t, f) i).2) := by
      simp [accum_step]
    rw [e, ih]

theorem accum_step_flag (l : csv_type_vector) (xs : List Nat) (t : csv_type_vector)
    (f : Bool) :
    xs.foldl (accum_step l) (t, f)
      = ((xs.foldl (accum_step l) (t, false)).1,
          f || (xs.foldl (accum_step l) (t, false)).2) := by
  induction xs generalizing t f with
  | nil => simp
  | cons i is ih =>
    simp only [List.foldl_cons]
    rw [ih (accum_step l (t, f) i).1 (accum_step l (t, f) i).2,
      ih (accum_step l (t, false) i).1 (accum_step l (t, false) i).2]
    simp [accum_step, Bool.or_assoc]

theorem accum_step_length (l : csv_type_vector) (xs : List Nat) (st : csv_type_vector × Bool) :
    (xs.foldl (accum_step l) st).1.length = st.1.length := by
  induction xs generalizing st with
  | nil => rfl
  | cons i is ih =>
    rw [List.foldl_cons, ih]
    simp [accum_step]

theorem foldl_push (g : Nat → csv_type) (xs : List Nat) (init : csv_type_vector) :
    xs.foldl (fun acc i => acc ++ [g i]) init = init ++ xs.map g := by
  induction xs generalizing init with
  | nil => simp
  | cons i is ih => simp [ih]

theorem map_getD_range' (l : csv_type_vector) (n : Nat) :
    (List.range' n (l.length - n)).map (fun i => l.getD i unknown) = l.drop n := by
  induction l generalizing n with
  | nil => simp
  | cons y l ih =>
    have shift : ∀ k m, (List.range' (k + 1) m).map (fun i => (y :: l).getD i unknown)
        = (List.range' k m).map (fun i => l.getD i unknown) := by
      intro k m
      induction m generalizing k with
      | zero => rfl
      | succ m ihm =>
        rw [List.range'_succ, List.range'_succ, List.map_cons, List.map_cons, ihm]
        rfl
    cases n with
    | zero =>
      rw [List.length_cons, Nat.sub_zero, List.range'_succ, List.map_cons, shift]
      have := ih 0
      simp only [Nat.sub_zero, List.drop_zero] at this
      rw [this]
      rfl
    | succ k =>
      rw [List.length_cons, Nat.add_sub_add_right, shift, ih k]
      rfl

/-- The second loop of `accum_line_types` appends the entries of `line_types` from index
`accum_types.size()` on. -/
theorem accum_line_types_eq (a l : csv_type_vector) :
    accum_line_types a l
      = (((List.range (min a.length l.length)).foldl (accum_step l) (a, false)).1
            ++ l.drop a.length,
          ((List.range (min a.length l.length)).foldl (accum_step l) (a, false)).2) := by
  unfold accum_line_types
  simp only [accum_step_length, foldl_push, map_getD_range']

theorem accum_line_types_nil_left (l : csv_type_vector) :
    accum_line_types [] l = (l, false) := by
  rw [accum_line_types_eq]
  simp

theorem accum_line_types_nil_right (a : csv_type_vector) :
    accum_line_types a [] = (a, false) := by
  rw [accum_line_types_eq]
  simp

theorem accum_line_types_cons (x y : csv_type) (a l : csv_type_vector) :
    accum_line_types (x :: a) (y :: l)
      = ((accum_column x y).1 :: (accum_line_types a l).1,
          (accum_column x y).2 || (accum_line_types a l).2) := by
  rw [accum_line_types_eq, accum_line_types_eq]
  have hmin : min (x :: a).length (y :: l).length = min a.length l.length + 1 := by
    simp [Nat.succ_min_succ]
  rw [hmin, List.range_succ_eq_map, List.foldl_cons, List.foldl_map]
  have e0 : accum_step (y :: l) (x :: a, false) 0
      = ((accum_column x y).1 :: a, (accum_column x y).2) := by
    simp [accum_step]
  rw [e0]
  have := accum_step_shift y l (accum_column x y).1 (List.range (min a.length l.length)) a
    (accum_column x y).2
  simp only [Nat.succ_eq_add_one] at this ⊢
  rw [this, accum_step_flag l _ a (accum_column x y).2]
  simp

theorem accum_column_string (l : csv_type) : accum_column string l = (string, false) := by
  cases l <;> rfl

theorem accum_column_unknown_right (a : csv_type) : accum_column a unknown = (a, false) := by
  cases a <;> rfl

theorem accum_column_unknown_left (l : csv_type) : accum_column unknown l = (l, false) := by
  cases l <;> rfl

theorem accum_column_self (a : csv_type) : accum_column a a = (a, false) := by
  cases a <;> rfl

/-- C11 (absorption): an index at which the accumulated vector holds `string` still holds
`string` after `accum_line_types`, whatever the length and the content of the observed
vector. -/
theorem accum_line_types_string_absorbs (a l : csv_type_vector) (i : Nat)
    (h : a[i]? = some string) : (accum_line_types a l).1[i]? = some string := by
  induction a generalizing l i with
  | nil => simp at h
  | cons x a ih =>
    cases l with
    | nil => rw [accum_line_types_nil_right]; exact h
    | cons y l =>
      rw [accum_line_types_cons]
      cases i with
      | zero =>
        simp only [List.getElem?_cons_zero, Option.some.injEq] at h
        rw [h, accum_column_string]
        simp
      | succ k =>
        simp only [List.getElem?_cons_succ] at h ⊢
        exact ih l k h

/-- Witness of C11: column 0 of `[string, float64]` after observing `[uint64, boolean, int8]`. -/
theorem accum_line_types_string_absorbs_witness :
    [string, float64][0]? = some string
      ∧ (accum_line_types [string, float64] [uint64, boolean, int8]).1[0]? = some string :=
  ⟨by decide, accum_line_types_string_absorbs _ _ 0 (by decide)⟩

/-- C12 (identity): for every type vector `v`, `accum_line_types` of `v` with the all-`unknown`
vector of the same length leaves `v` unchanged, and `accum_line_types` of that
all-`unknown` vector with `v` turns the accumulator into `v`; no assertion is reached. -/
theorem accum_line_types_unknown_identity (v : csv_type_vector) :
    accum_line_types v (List.replicate v.length unknown) = (v, false)
      ∧ accum_line_types (List.replicate v.length unknown) v = (v, false) := by
  induction v with
  | nil => exact ⟨rfl, rfl⟩
  | cons x v ih =>
    simp only [List.length_cons, List.replicate_succ, accum_line_types_cons, ih.1, ih.2,
      accum_column_unknown_right, accum_column_unknown_left, Bool.or_self, and_self]

/-- C13 (idempotence): for every type vector `t` over `csv_type`, `float32` and `float80`
included, `accum_line_types` of `t` with `t` leaves `t` unchanged; no assertion is
reached. -/
theorem accum_line_types_idempotent (t : csv_type_vector) :
    accum_line_types t t = (t, false) := by
  induction t with
  | nil => rfl
  | cons x t ih => rw [accum_line_types_cons, ih, accum_column_self]; rfl

/-- C14 (ragged rows): after `accum_line_types` the accumulated vector has the length
`max(|a|, |l|)`; an index below both lengths holds the merge `accum_column a[i] l[i]`; an
index from `|a|` on and below `|l|` holds `l[i]`; an index from `|l|` on and below `|a|`
still holds `a[i]`. -/
theorem accum_line_types_ragged (a l : csv_type_vector) :
    (accum_line_types a l).1.length = max a.length l.length
      ∧ (∀ (i : Nat) (ha : i < a.length) (hl : i < l.length),
          (accum_line_types a l).1[i]? = some (accum_column a[i] l[i]).1)
      ∧ (∀ i : Nat, a.length ≤ i → i < l.length → (accum_line_types a l).1[i]? = l[i]?)
      ∧ (∀ i : Nat, l.length ≤ i → i < a.length → (accum_line_types a l).1[i]? = a[i]?) := by
  induction a generalizing l with
  | nil =>
    rw [accum_line_types_nil_left]
    refine ⟨by simp, fun i ha _ => absurd ha (by simp), fun i _ _ => rfl, fun i _ h => absurd h (by simp)⟩
  | cons x a ih =>
    cases l with
    | nil =>
      rw [accum_line_types_nil_right]
      refine ⟨by simp, fun i _ hl => absurd hl (by simp), fun i _ h => absurd h (by simp),
        fun i _ _ => rfl⟩
    | cons y l =>
      rw [accum_line_types_cons]
      obtain ⟨h1, h2, h3, h4⟩ := ih l
      refine ⟨?_, ?_, ?_, ?_⟩
      · simp only [List.length_cons, h1]
        omega
      · intro i ha hl
        cases i with
        | zero => simp
        | succ k =>
          simp only [List.getElem?_cons_succ, List.getElem_cons_succ]
          exact h2 k (by simpa using ha) (by simpa using hl)
      · intro i ha hl
        cases i with
        | zero => simp at ha
        | succ k =>
          simp only [List.getElem?_cons_succ]
          exact h3 k (by simpa using ha) (by simpa using hl)
      · intro i hl ha
        cases i with
        | zero => simp at hl
        | succ k =>
          simp only [List.getElem?_cons_succ]
          exact h4 k (by simpa using hl) (by simpa using ha)

/-- Witness of C14 on the vectors of the test suite with two, three and one columns. -/
theorem accum_line_types_ragged_witness :
    (accum_line_types [string, float64] [string, float64, unknown]).1.length = max 2 3
      ∧ (accum_line_types [boolean, float64] [int8, float64, unknown]).1[0]?
          = some (accum_column boolean int8).1
      ∧ (accum_line_types [string, float64] [string, float64, unknown]).1[2]?
          = [string, float64, unknown][2]?
      ∧ (accum_line_types [string, float64] [string]).1[1]? = [string, float64][1]? :=
  ⟨(accum_line_types_ragged [string, float64] [string, float64, unknown]).1,
    (accum_line_types_ragged [boolean, float64] [int8, float64, unknown]).2.1 0
      (by decide) (by decide),
    (accum_line_types_ragged [string, float64] [string, float64, unknown]).2.2.1 2
      (by decide) (by decide),
    (accum_line_types_ragged [string, float64] [string]).2.2.2 1 (by decide) (by decide)⟩

/-- C15 (same signedness): for two signed integer types, and for two unsigned integer types,
`a` accumulated and `l` observed, the merged column is `l` when `l` is wider than `a` and
`a` otherwise; no assertion is reached. -/
theorem accum_same_signedness (a l : csv_type)
    (h : (is_sint a && is_sint l || is_uint a && is_uint l) = true) :
    accum_line_types [a] [l] = ([if int_bits a < int_bits l then l else a], false) := by
  cases a <;> cases l <;> first | exact absurd h (by decide) | rfl

/-- Witness of C15 at `int8` accumulated, `int64` observed. -/
theorem accum_same_signedness_witness :
    (is_sint int8 && is_sint int64 || is_uint int8 && is_uint int64) = true
      ∧ accum_line_types [int8] [int64] = ([int64], false) :=
  ⟨by decide, accum_same_signedness int8 int64 (by decide)⟩

/-- C16 (float wins): for every integer type `t`, accumulated `t` with observed `float64`
gives `float64`, and accumulated `float64` with observed `t` stays `float64`. -/
theorem accum_float_wins (t : csv_type) (h : is_int t = true) :
    accum_line_types [t] [float64] = ([float64], false)
      ∧ accum_line_types [float64] [t] = ([float64], false) := by
  cases t <;> first | exact absurd h (by decide) | exact ⟨rfl, rfl⟩

/-- Witness of C16 at `uint32`. -/
theorem accum_float_wins_witness :
    is_int uint32 = true
      ∧ accum_line_types [uint32] [float64] = ([float64], false)
      ∧ accum_line_types [float64] [uint32] = ([float64], false) :=
  ⟨by decide, accum_float_wins uint32 (by decide)⟩

/-! ## The field classifier: `true` and `false` -/

theorem true_false_test_iff (flags : Nat) :
    flags_eq (op_and flags csv_flags.detect_true_false_bool) csv_flags.detect_true_false_bool
      = flags.testBit 6 := by
  have hb : flags % 256 < 256 := Nat.mod_lt _ (by norm_num)
  have e : static_cast_int8 csv_flags.detect_true_false_bool = 0x40 := by decide
  have ht : flags.testBit 6 = (flags % 256).testBit 6 := by
    rw [Nat.testBit_to_div_mod, Nat.testBit_to_div_mod]
    congr 2
    change flags / 64 % 2 = flags % 256 / 64 % 2
    omega
  unfold op_and flags_eq
  rw [e, ht]
  unfold static_cast_int8
  generalize flags % 256 = b at hb
  interval_cases b <;> rfl

theorem true_false_spellings_tests :
    true_false_spellings.all (fun s => decide (s.length ≠ 0)
      && (spells_true s || spells_false s)) = true := by
  decide

theorem true_false_spellings_string (u : uninit) :
    true_false_spellings.all (fun s => match_number u s == string) = true := rfl

/-- C17 (true/false): for every upper/lower-case spelling `s` of `true` or `false` and every
flags value, `match_type` returns `boolean` when the bit `detect_true_false_bool = 0x40`
(bit 6) is set in the flags and `string` when it is not. -/
theorem match_type_true_false (u : uninit) (flags : csv_flags) (s : List Char)
    (h : s ∈ true_false_spellings) :
    (flags.testBit 6 = true → match_type u s flags = boolean)
      ∧ (flags.testBit 6 = false → match_type u s flags = string) := by
  have h1 := List.all_eq_true.mp true_false_spellings_tests s h
  have h2 := List.all_eq_true.mp (true_false_spellings_string u) s h
  simp only [Bool.and_eq_true, decide_eq_true_eq, beq_iff_eq] at h1 h2
  rw [match_type_eq, true_false_test_iff, yes_no_test_false, h1.2, h2]
  simp only [h1.1, if_false, Bool.and_true, Bool.false_and, Bool.false_eq_true]
  constructor
  · intro hb
    rw [if_pos hb]
  · intro hb
    rw [if_neg (by simp [hb])]

/-- Witness of C17 at `TRUE`, with the flags of the test suite and with `detect_yes_no_bool`
alone. -/
theorem match_type_true_false_witness :
    "TRUE".toList ∈ true_false_spellings
      ∧ test_flags.testBit 6 = true
      ∧ match_type ⟨0, 0⟩ "TRUE".toList test_flags = boolean
      ∧ csv_flags.detect_yes_no_bool.testBit 6 = false
      ∧ match_type ⟨0, 0⟩ "TRUE".toList csv_flags.detect_yes_no_bool = string :=
  ⟨by decide, by decide,
    (match_type_true_false ⟨0, 0⟩ test_flags "TRUE".toList (by decide)).1 (by decide),
    by decide,
    (match_type_true_false ⟨0, 0⟩ csv_flags.detect_yes_no_bool "TRUE".toList (by decide)).2
      (by decide)⟩

/-! ## The line tokenizer: fuel, quoted values, blank lines -/

theorem find_trail_single_skip (qt : Char) (s r : List Char) (hs : ∀ ch ∈ s, ch ≠ qt) :
    find_trail [qt] (s ++ r) = find_trail [qt] r := by
  induction s with
  | nil => rfl
  | cons c cs ih =>
    have hc : (c == qt) = false := by simpa using hs c (List.mem_cons_self _ _)
    rw [List.cons_append, find_trail, match_symbol_single, hc]
    simp only [Bool.false_eq_true, if_false]
    exact ih (fun d hd => hs d (List.mem_cons_of_mem _ hd))

theorem find_trail_single_hit (qt : Char) (r : List Char) :
    find_trail [qt] (qt :: r) = qt :: r := by
  rw [find_trail, match_symbol_single]
  simp

/-- One iteration of the field loop on a quoted value that is closed. -/
theorem eval_fields_quoted_step (us : Nat → uninit) (sep ws : List Char) (ql qt : Char)
    (flags : csv_flags) (k : Nat) (w s t r : List Char)
    (hql : match_any_char ql ws = false)
    (hw : ∀ ch ∈ w, match_any_char ch ws = true)
    (hs : ∀ ch ∈ s, ch ≠ qt)
    (ht : ∀ ch ∈ t, match_any_char ch sep = false)
    (hr : ∀ ch, r.head? = some ch → match_any_char ch sep = true) :
    eval_fields us sep [ql] [qt] ws flags (k + 1) (w ++ ql :: (s ++ qt :: (t ++ r)))
      = (eval_fields (later_calls us) sep [ql] [qt] ws flags k (r.drop 1)).push (match_type (us 0) s flags) := by
  rw [eval_fields_succ _ _ _ _ _ _ _ _ (by simp)]
  have h1 : (w ++ ql :: (s ++ qt :: (t ++ r))).dropWhile (fun ch => match_any_char ch ws)
      = ql :: (s ++ qt :: (t ++ r)) := by
    rw [dropWhile_append_of_all _ _ hw]
    exact dropWhile_stop _ (fun c hc => by
      simp only [List.head?_cons, Option.some.injEq] at hc
      rw [← hc]; exact hql)
  have h2 : find_trail [qt] (s ++ qt :: (t ++ r)) = qt :: (t ++ r) := by
    rw [find_trail_single_skip qt s _ hs, find_trail_single_hit]
  have h3 : (t ++ r).dropWhile (fun ch => !match_any_char ch sep) = r := by
    rw [dropWhile_append_of_all _ _ (fun c hc => by simp [ht c hc])]
    exact dropWhile_stop _ (fun c hc => by simp [hr c hc])
  have h4 : (s ++ qt :: (t ++ r)).take
      ((s ++ qt :: (t ++ r)).length - (qt :: (t ++ r)).length) = s := by
    have : (s ++ qt :: (t ++ r)).length - (qt :: (t ++ r)).length = s.length := by
      simp
    rw [this, List.take_left']
    rfl
  simp only [h1, match_symbol_single, beq_self_eq_true, if_true, List.length_singleton,
    List.drop_succ_cons, List.drop_zero, h2, h3, h4]
  cases r <;> simp

/-- One iteration of the field loop on a quoted value that is not closed. -/
theorem eval_fields_unterminated (us : Nat → uninit) (sep ws : List Char) (ql qt : Char)
    (flags : csv_flags) (k : Nat) (w s : List Char)
    (hql : match_any_char ql ws = false)
    (hw : ∀ ch ∈ w, match_any_char ch ws = true)
    (hs : ∀ ch ∈ s, ch ≠ qt) :
    eval_fields us sep [ql] [qt] ws flags (k + 1) (w ++ ql :: s)
      = scan_result.types [match_type (us 0) s flags] := by
  rw [eval_fields_succ _ _ _ _ _ _ _ _ (by simp)]
  have h1 : (w ++ ql :: s).dropWhile (fun ch => match_any_char ch ws) = ql :: s := by
    rw [dropWhile_append_of_all _ _ hw]
    exact dropWhile_stop _ (fun c hc => by
      simp only [List.head?_cons, Option.some.injEq] at hc
      rw [← hc]; exact hql)
  have h2 : find_trail [qt] s = [] := by
    have := find_trail_single_skip qt s [] hs
    rw [List.append_nil] at this
    rw [this]
    rfl
  simp only [h1, match_symbol_single, beq_self_eq_true, if_true, List.length_singleton,
    List.drop_succ_cons, List.drop_zero, h2]
  simp

/-- C19, as stated, fails at two inputs. With `"` as quote symbol and also in the
whitespace set, the empty prefix and the text `1,2` satisfy the conditions, and
`eval_line_types` of `"1,2` is `[int8, int8]` whatever the uninitialized locals hold,
not `[match_type(1,2)] = [string]`: the quote is skipped as whitespace. With the usual
whitespace set, the text of twenty nines satisfies the conditions, and `eval_line_types`
of the quote followed by it gives `[int8]` when the local `val` of its call holds `0`
while a call of `match_type` whose `val` holds `1000` gives `int16`. -/
theorem unterminated_quote_whitespace_counterexample :
    (∀ ch ∈ ([] : List Char), match_any_char ch [' ', '"'] = true)
      ∧ (∀ ch ∈ "1,2".toList, ch ≠ '"')
      ∧ (∀ us : Nat → uninit,
          eval_line_types us ([] ++ '"' :: "1,2".toList) [','] ['"'] ['"'] [' ', '"']
            test_flags = scan_result.types [int8, int8])
      ∧ (∀ u : uninit, [match_type u "1,2".toList test_flags] = [string])
      ∧ (∀ ch ∈ ([] : List Char), match_any_char ch [' ', '\t'] = true)
      ∧ (∀ ch ∈ nines, ch ≠ '"')
      ∧ eval_line_types zero_calls ([] ++ '"' :: nines) [','] ['"'] ['"'] [' ', '\t']
          test_flags = scan_result.types [int8]
      ∧ [match_type ⟨1000, 0⟩ nines test_flags] = [int16] :=
  ⟨by decide, by decide, fun _ => rfl, fun _ => rfl, by decide, by decide, by decide,
    by decide⟩

/-- C19, amended (the quote-lead character is not a whitespace character, and the type of
the text does not depend on uninitialized memory): let the quote symbols be the single
characters `ql` and `qt`, `ql` not a whitespace character, `w` be made of whitespace
characters and `s` be free of `qt` and a text on which the result of `match_type` does
not depend on what the uninitialized locals `val` hold (as is every text of at most
eighteen characters, see `val_independent_of_length_le`). Then `eval_line_types` of
`w ql s` returns `[match_type s]`: one field, no error, no further field, whatever the
locals hold in the call of the run (`us`) and in the separate call of `match_type`
(`u`). -/
theorem eval_line_types_unterminated (us : Nat → uninit) (u : uninit) (sep ws : List Char)
    (ql qt : Char) (flags : csv_flags) (w s : List Char)
    (hql : match_any_char ql ws = false)
    (hw : ∀ ch ∈ w, match_any_char ch ws = true)
    (hs : ∀ ch ∈ s, ch ≠ qt)
    (hval : val_independent s flags) :
    eval_line_types us (w ++ ql :: s) sep [ql] [qt] ws flags
      = scan_result.types [match_type u s flags] := by
  have hl : (w ++ ql :: s).length = (w.length + s.length) + 1 := by
    simp only [List.length_cons, List.length_append]
    omega
  rw [eval_line_types, if_neg (by simp), hl, ← hval (us 0) u]
  exact eval_fields_unterminated us sep ws ql qt flags _ w s hql hw hs

/-- Witness of C19 (amended) at the line ` "1,2`, the locals holding `0` in the call of
the run and `1000` and `7` in the separate call. -/
theorem eval_line_types_unterminated_witness :
    match_any_char '"' [' ', '\t'] = false
      ∧ (∀ ch ∈ " ".toList, match_any_char ch [' ', '\t'] = true)
      ∧ (∀ ch ∈ "1,2".toList, ch ≠ '"')
      ∧ val_independent "1,2".toList test_flags
      ∧ eval_line_types zero_calls " \"1,2".toList [','] ['"'] ['"'] [' ', '\t'] test_flags
          = scan_result.types [match_type ⟨1000, 7⟩ "1,2".toList test_flags]
      ∧ match_type ⟨1000, 7⟩ "1,2".toList test_flags = string :=
  ⟨by decide, by decide, by decide, fun _ _ => rfl,
    eval_line_types_unterminated zero_calls ⟨1000, 7⟩ [','] [' ', '\t'] '"' '"' test_flags
      " ".toList "1,2".toList (by decide) (by decide) (by decide) (fun _ _ => rfl),
    by decide⟩

/-- C20 (blank line): whatever the separator set, the quote symbols, the whitespace set and
the flags, `eval_line_types` of the empty line returns `[unknown]`, and so does
`eval_line_types` of every non-empty line made of whitespace characters only. -/
theorem eval_line_types_blank (us : Nat → uninit) (sep ql qt ws : List Char) (flags : csv_flags) :
    eval_line_types us [] sep ql qt ws flags = scan_result.types [unknown]
      ∧ ∀ line : List Char, line ≠ [] → (∀ ch ∈ line, match_any_char ch ws = true) →
          eval_line_types us line sep ql qt ws flags = scan_result.types [unknown] := by
  refine ⟨rfl, fun line hne hall => ?_⟩
  have h0 : line.length ≠ 0 := by simpa using hne
  obtain ⟨k, hk⟩ : ∃ k, line.length = k + 1 := ⟨line.length - 1, by omega⟩
  have hd : line.dropWhile (fun ch => match_any_char ch ws) = [] := by
    have := dropWhile_append_of_all (p := fun ch => match_any_char ch ws) line [] hall
    simpa using this
  rw [eval_line_types, if_neg h0, hk, eval_fields_succ _ _ _ _ _ _ _ _ hne]
  simp only [hd, List.length_nil, if_true]

/-- Witness of C20 at a line of two spaces around a tab. -/
theorem eval_line_types_blank_witness :
    " \t ".toList ≠ [] ∧ (∀ ch ∈ " \t ".toList, match_any_char ch [' ', '\t'] = true)
      ∧ eval_line_types zero_calls " \t ".toList [','] ['"'] ['"'] [' ', '\t'] test_flags
          = scan_result.types [unknown] :=
  ⟨by decide, by decide,
    (eval_line_types_blank zero_calls [','] ['"'] ['"'] [' ', '\t'] test_flags).2 _ (by decide)
      (by decide)⟩

/-! ## The line tokenizer: number of fields, quote symbols of several characters -/

theorem scanned_fields_append (sep pre x : List Char)
    (hpre : ∀ c ∈ pre, match_any_char c sep = false) :
    scanned_fields sep (pre ++ x) = scanned_fields sep x := by
  have hc : count_seps sep (pre ++ x) = count_seps sep x := by
    unfold count_seps
    rw [List.countP_append]
    have : List.countP (fun ch => match_any_char ch sep) pre = 0 :=
      List.countP_eq_zero.mpr (fun a ha => by simp [hpre a ha])
    omega
  have he : ends_with_sep sep (pre ++ x) = ends_with_sep sep x := by
    unfold ends_with_sep
    rw [List.getLast?_append]
    cases hx : x.getLast? with
    | some c => rfl
    | none =>
      simp only [Option.none_or]
      cases hp : pre.getLast? with
      | none => rfl
      | some c => exact hpre c (List.mem_of_getLast?_eq_some hp)
  unfold scanned_fields
  rw [hc, he]

theorem scanned_fields_cons (sep : List Char) (c : Char) (rest : List Char)
    (hc : match_any_char c sep = true) :
    scanned_fields sep (c :: rest)
      = 1 + (if rest = [] then 0 else scanned_fields sep rest) := by
  cases rest with
  | nil => simp [scanned_fields, count_seps, ends_with_sep, hc]
  | cons d ds =>
    simp only [scanned_fields, count_seps, ends_with_sep, List.getLast?_cons_cons,
      List.countP_cons, hc, if_true]
    simp
    omega

theorem scan_unquoted_split (sep ws : List Char) (s : List Char) (pos last : Nat) :
    ∃ pre, s = pre ++ (scan_unquoted sep ws s pos last).2
      ∧ (∀ c ∈ pre, match_any_char c sep = false)
      ∧ (∀ c, (scan_unquoted sep ws s pos last).2.head? = some c →
          match_any_char c sep = true) := by
  induction s generalizing pos last with
  | nil => exact ⟨[], rfl, by simp, by simp [scan_unquoted]⟩
  | cons c cs ih =>
    rw [scan_unquoted_cons]
    by_cases hc : match_any_char c sep = true
    · simp only [hc, if_true]
      exact ⟨[], rfl, by simp, by simp [hc]⟩
    · simp only [hc, Bool.false_eq_true, if_false]
      obtain ⟨pre, h1, h2, h3⟩ := ih (pos + 1) (if !match_any_char c ws then pos + 1 else last)
      refine ⟨c :: pre, ?_, ?_, h3⟩
      · rw [List.cons_append, ← h1]
      · intro d hd
        rcases List.mem_cons.mp hd with rfl | hd
        · simpa using hc
        · exact h2 d hd

theorem eval_fields_count (us : Nat → uninit) (sep qt ws : List Char) (q : Char) (flags : csv_flags)
    (hdisj : ∀ c ∈ sep, match_any_char c ws = false)
    (k : Nat) (fld : List Char) (hk : fld.length ≤ k) (hq : ∀ ch ∈ fld, ch ≠ q) :
    ∃ v, eval_fields us sep [q] qt ws flags k fld = scan_result.types v
      ∧ v.length = if fld = [] then 0 else scanned_fields sep fld := by
  have hws : ∀ c, match_any_char c ws = true → match_any_char c sep = false := by
    intro c hc
    by_contra hcon
    simp only [Bool.not_eq_false] at hcon
    simp only [match_any_char, List.any_eq_true, beq_iff_eq] at hcon
    obtain ⟨d, hd, rfl⟩ := hcon
    rw [hdisj c hd] at hc
    exact absurd hc (by simp)
  induction k generalizing fld us with
  | zero =>
    have : fld = [] := List.length_eq_zero.mp (Nat.le_zero.mp hk)
    exact ⟨[], by rw [this, eval_fields_nil], by simp [this]⟩
  | succ k ih =>
    by_cases hf : fld = []
    · exact ⟨[], by rw [hf, eval_fields_nil], by simp [hf]⟩
    · rw [eval_fields_succ _ _ _ _ _ _ _ _ hf]
      simp only [hf, if_false]
      have hsplit := List.takeWhile_append_dropWhile (fun ch => match_any_char ch ws) fld
      have hpre : ∀ c ∈ fld.takeWhile (fun ch => match_any_char ch ws),
          match_any_char c sep = false :=
        fun c hc => hws c (List.mem_takeWhile_imp (p := fun ch => match_any_char ch ws) hc)
      generalize hfld1 : fld.dropWhile (fun ch => match_any_char ch ws) = fld1 at hsplit
      generalize fld.takeWhile (fun ch => match_any_char ch ws) = pre at hsplit hpre
      subst hsplit
      rw [scanned_fields_append sep pre fld1 hpre]
      cases fld1 with
      | nil => exact ⟨[unknown], by simp, by simp [scanned_fields, count_seps, ends_with_sep]⟩
      | cons d ds =>
        have hdq : (d == q) = false := by
          simpa using hq d (by simp)
        obtain ⟨pre2, h1, h2, h3⟩ := scan_unquoted_split sep ws (d :: ds) 0 0
        generalize scan_unquoted sep ws (d :: ds) 0 0 = r at h1 h3
        obtain ⟨last, r2⟩ := r
        simp only [] at h1 h3
        simp only [List.length_cons, Nat.succ_ne_zero, if_false, match_symbol_single, hdq,
          Bool.false_eq_true]
        rw [h1, scanned_fields_append sep pre2 r2 h2]
        cases r2 with
        | nil =>
          simp only [List.length_nil, ne_eq, not_true_eq_false, if_false, eval_fields_nil,
            scan_result.push]
          exact ⟨_, rfl, by simp [scanned_fields, count_seps, ends_with_sep]⟩
        | cons c rest =>
          have hc : match_any_char c sep = true := h3 c rfl
          have hlen : rest.length ≤ k := by
            have : (pre ++ d :: ds).length = pre.length + pre2.length + (rest.length + 1) := by
              rw [h1]; simp; omega
            omega
          have hrq : ∀ ch ∈ rest, ch ≠ q := by
            intro ch hch
            apply hq
            rw [h1]
            simp [hch]
          obtain ⟨v, hv, hvl⟩ := ih (later_calls us) rest hlen hrq
          simp only [List.length_cons, ne_eq, Nat.succ_ne_zero, not_false_eq_true, if_true,
            List.drop_succ_cons, List.drop_zero, hv, scan_result.push]
          refine ⟨_, rfl, ?_⟩
          rw [scanned_fields_cons sep c rest hc, List.length_cons, hvl]
          omega

/-- C21 (field count): let the separator set and the whitespace set be disjoint and the
quote-lead symbol be the single character `q`. For a non-empty line without `q`,
`eval_line_types` returns a vector with one entry per separator character of the line,
and one more unless the line ends with a separator character: a line that ends with a
separator character has no entry for its trailing blank field. -/
theorem eval_line_types_field_count (us : Nat → uninit) (sep qt ws : List Char) (q : Char)
    (flags : csv_flags) (line : List Char)
    (hdisj : ∀ c ∈ sep, match_any_char c ws = false)
    (hne : line ≠ []) (hq : ∀ ch ∈ line, ch ≠ q) :
    ∃ v, eval_line_types us line sep [q] qt ws flags = scan_result.types v
      ∧ v.length = count_seps sep line + (if ends_with_sep sep line then 0 else 1) := by
  have h0 : line.length ≠ 0 := by simpa using hne
  obtain ⟨v, hv, hl⟩ := eval_fields_count us sep qt ws q flags hdisj line.length line le_rfl hq
  rw [if_neg hne] at hl
  exact ⟨v, by rw [eval_line_types, if_neg h0, hv], hl⟩

/-- Witness of C21 at the line `1,`: one separator character, one entry (`[int8]`); the line
`1, ` with a space after the comma has two entries. -/
theorem eval_line_types_field_count_witness :
    (∀ c ∈ [','], match_any_char c [' ', '\t'] = false)
      ∧ "1,".toList ≠ [] ∧ (∀ ch ∈ "1,".toList, ch ≠ '"')
      ∧ count_seps [','] "1,".toList = 1 ∧ ends_with_sep [','] "1,".toList = true
      ∧ eval_line_types zero_calls "1,".toList [','] ['"'] ['"'] [' ', '\t'] test_flags
          = scan_result.types [int8]
      ∧ eval_line_types zero_calls "1, ".toList [','] ['"'] ['"'] [' ', '\t'] test_flags
          = scan_result.types [int8, unknown]
      ∧ ∃ v, eval_line_types zero_calls "1,".toList [','] ['"'] ['"'] [' ', '\t'] test_flags
            = scan_result.types v
          ∧ v.length = count_seps [','] "1,".toList
              + (if ends_with_sep [','] "1,".toList then 0 else 1) :=
  ⟨by decide, by decide, by decide, by decide, by decide, by decide, by decide,
    eval_line_types_field_count zero_calls [','] ['"'] [' ', '\t'] '"' test_flags "1,".toList
      (by decide) (by decide) (by decide)⟩

theorem match_symbol_iff (line symbol : List Char) :
    match_symbol line symbol = true
      ↔ (∃ r, line = symbol ++ r) ∨ (∃ r, symbol = line ++ r) := by
  induction line generalizing symbol with
  | nil => simp [match_symbol]
  | cons l ln ih =>
    cases symbol with
    | nil => simp [match_symbol]
    | cons s sy =>
      rw [match_symbol]
      by_cases h : l = s
      · subst h
        simp only [beq_self_eq_true, if_true, ih, List.cons_append, List.cons.injEq, true_and]
      · have hb : (l == s) = false := by simpa using h
        simp only [hb, Bool.false_eq_true, if_false, List.cons_append, List.cons.injEq, h,
          false_and, exists_false, or_self]
        simp [Ne.symm h]

/-- C23 (quote symbols of several characters): `match_symbol` is true exactly when the symbol
starts the line or the line starts the symbol, so the line `<` matches the symbol `<<`,
which does not occur there. With the quote symbols `<<` and `>>` the cursor of
`eval_line_types` is moved beyond the end of the lines `<`, `1,<` and `<<a>`. -/
theorem match_symbol_accepts_partial_symbol (us : Nat → uninit) (flags : csv_flags) :
    match_symbol ['<'] ['<', '<'] = true
      ∧ (¬ ∃ r, ['<'] = ['<', '<'] ++ r)
      ∧ eval_line_types us "<".toList [','] ['<', '<'] ['>', '>'] [' '] flags
          = scan_result.overrun
      ∧ eval_line_types us "1,<".toList [','] ['<', '<'] ['>', '>'] [' '] flags
          = scan_result.overrun
      ∧ eval_line_types us "<<a>".toList [','] ['<', '<'] ['>', '>'] [' '] flags
          = scan_result.overrun
      ∧ ∀ line symbol : List Char, match_symbol line symbol = true
          ↔ (∃ r, line = symbol ++ r) ∨ (∃ r, symbol = line ++ r) :=
  ⟨rfl, by simp, rfl, rfl, rfl, match_symbol_iff⟩

/-! ## The flag operators -/

theorem low_flag_tests (a k : Nat) (hk : k < 7) :
    flags_eq (op_and a (2 ^ k)) (2 ^ k) = a.testBit k
      ∧ flags_eq (op_and (op_or a (2 ^ k)) (2 ^ k)) (2 ^ k) = true := by
  have hb : a % 256 < 256 := Nat.mod_lt _ (by norm_num)
  have ht : a.testBit k = (a % 256).testBit k := by
    have := Nat.testBit_mod_two_pow a 8 k
    have h8 : (2 : Nat) ^ 8 = 256 := by norm_num
    rw [h8] at this
    rw [this]
    simp [show k < 8 by omega]
  rw [ht]
  unfold op_and op_or flags_eq
  unfold static_cast_int8
  generalize a % 256 = r at hb
  interval_cases k <;> interval_cases r <;> exact ⟨rfl, rfl⟩

theorem high_flag_tests (a : Nat) :
    flags_eq (op_and (op_or a csv_flags.detect_yes_no_bool) csv_flags.detect_yes_no_bool)
        csv_flags.detect_yes_no_bool = false
      ∧ flags_eq (op_and (op_or a csv_flags.detect_integer_bool) csv_flags.detect_integer_bool)
        csv_flags.detect_integer_bool = false := by
  refine ⟨yes_no_test_false _, ?_⟩
  have e : static_cast_int8 csv_flags.detect_integer_bool = 0 := by decide
  unfold op_and flags_eq
  rw [e, Nat.and_zero]
  decide

/-- C22 (flag algebra): `operator|` of `none` and `detect_integer_bool = 0x100` is `0`, not
`0x100`; of `none` and `detect_yes_no_bool = 0x80` it is `0xFF80` (`-128`), not `0x80`;
`operator&` of `header_default` and `detect_any_bool` is `0xFFC0`, not `0x1C0`. For the
flags `0x80` and `0x100` the test `((a | b) & b) == b` fails for every `a`. For the bits
`2^k` with `k < 7`, which the conversion to `int8_t` keeps, `((a | b) & b) == b` holds and
`(a & b) == b` holds exactly when the bit is set in `a`. -/
theorem flag_operators_int8 :
    op_or csv_flags.none csv_flags.detect_integer_bool = 0
      ∧ csv_flags.none ||| csv_flags.detect_integer_bool = 0x100
      ∧ op_or csv_flags.none csv_flags.detect_yes_no_bool = 0xFF80
      ∧ csv_flags.none ||| csv_flags.detect_yes_no_bool = 0x80
      ∧ op_and csv_flags.header_default csv_flags.detect_any_bool = 0xFFC0
      ∧ csv_flags.header_default &&& csv_flags.detect_any_bool = 0x1C0
      ∧ (∀ a : csv_flags,
          flags_eq (op_and (op_or a csv_flags.detect_yes_no_bool) csv_flags.detect_yes_no_bool)
              csv_flags.detect_yes_no_bool = false
            ∧ flags_eq (op_and (op_or a csv_flags.detect_integer_bool)
                csv_flags.detect_integer_bool) csv_flags.detect_integer_bool = false)
      ∧ ∀ (a : csv_flags) (k : Nat), k < 7 →
          flags_eq (op_and (op_or a (2 ^ k)) (2 ^ k)) (2 ^ k) = true
            ∧ flags_eq (op_and a (2 ^ k)) (2 ^ k) = a.testBit k :=
  ⟨by decide, by decide, by decide, by decide, by decide, by decide, high_flag_tests,
    fun a k hk => ⟨(low_flag_tests a k hk).2, (low_flag_tests a k hk).1⟩⟩

/-- Witness of C22 at `a = has_header_row`, `b = detect_true_false_bool = 2^6`. -/
theorem flag_operators_int8_witness :
    (6 < 7)
      ∧ flags_eq (op_and (op_or csv_flags.has_header_row csv_flags.detect_true_false_bool)
          csv_flags.detect_true_false_bool) csv_flags.detect_true_false_bool = true
      ∧ flags_eq (op_and csv_flags.has_header_row csv_flags.detect_true_false_bool)
          csv_flags.detect_true_false_bool = csv_flags.has_header_row.testBit 6 :=
  ⟨by decide, flag_operators_int8.2.2.2.2.2.2.2 csv_flags.has_header_row 6 (by decide)⟩

/-! ## The field classifier: out-of-range numbers, the types of non-empty ranges -/

theorem overflow_int_reads_uninit (u : uninit) :
    smallest_int_type u "99999999999999999999".toList = narrowest_sint u.int64_val := by
  have hneg : ("99999999999999999999".toList.head? == some '-') = false := by decide
  have hp : leading_digits 10 "99999999999999999999".toList = "99999999999999999999".toList := by
    decide
  have hn : ¬ (-(2 ^ 63 : Int) ≤ (digits_number 10 "99999999999999999999".toList : Int)
      ∧ (digits_number 10 "99999999999999999999".toList : Int) ≤ 2 ^ 63 - 1) := by
    decide
  have hl : "99999999999999999999".toList.length = 20 := rfl
  have h : from_chars_int64 "99999999999999999999".toList u.int64_val = (20, u.int64_val) := by
    unfold from_chars_int64
    simp only [hneg, Bool.false_eq_true, if_false, hp, hl, hn]
    rfl
  unfold smallest_int_type
  simp only [h, hl, ne_eq, not_true_eq_false, if_false]
  rfl

theorem overflow_hex_reads_uninit (u : uninit) :
    smallest_uint_type u "10000000000000000".toList 16 = narrowest_uint u.uint64_val := by
  have hp : leading_digits 16 "10000000000000000".toList = "10000000000000000".toList := by
    decide
  have hn : ¬ digits_number 16 "10000000000000000".toList < 2 ^ 64 := by decide
  have hl : "10000000000000000".toList.length = 17 := rfl
  have h : from_chars_uint64 "10000000000000000".toList u.uint64_val 16
      = (17, u.uint64_val) := by
    unfold from_chars_uint64
    simp only [hp, hl, hn, if_false]
    rfl
  unfold smallest_uint_type
  simp only [h, hl, ne_eq, not_true_eq_false, if_false]
  rfl

/-- C24 (out-of-range literals): the twenty digits `99999999999999999999` do not fit in 64
bits, yet `match_type` gives them a signed integer type, the narrowest one that contains
whatever the uninitialized `val` of `smallest_int_type` holds (`int8` when it holds `0`);
likewise `0x10000000000000000`, of value `2^64`, gets the narrowest unsigned integer type
that contains the uninitialized `val` of `smallest_uint_type`. -/
theorem match_type_out_of_range (u : uninit) (flags : csv_flags) :
    match_type u "99999999999999999999".toList flags = narrowest_sint u.int64_val
      ∧ 2 ^ 64 - 1 < dec_number "99999999999999999999".toList
      ∧ match_type u "0x10000000000000000".toList flags = narrowest_uint u.uint64_val
      ∧ 2 ^ 64 - 1 < hex_number "10000000000000000".toList
      ∧ match_type ⟨0, 0⟩ "99999999999999999999".toList flags = int8
      ∧ match_type ⟨0, 0⟩ "0x10000000000000000".toList flags = uint8 := by
  have h1 : ∀ v : uninit, match_type v "99999999999999999999".toList flags
      = narrowest_sint v.int64_val := by
    intro v
    rw [show "99999999999999999999".toList = '9' :: "9999999999999999999".toList from rfl,
      match_type_of_dec_head v '9' _ flags (by decide),
      match_number_of_not_hex v _ (by decide), match_decimal_of_not_plus v _ (by decide),
      match_signed_or_float]
    have := overflow_int_reads_uninit v
    rw [show "99999999999999999999".toList = '9' :: "9999999999999999999".toList from rfl]
      at this
    rw [this]
    simp only [ne_eq, narrowest_sint_ne_unknown, not_false_eq_true, if_true]
  have h2 : ∀ v : uninit, match_type v "0x10000000000000000".toList flags
      = narrowest_uint v.uint64_val := by
    intro v
    rw [show "0x10000000000000000".toList = '0' :: "x10000000000000000".toList from rfl,
      match_type_of_head v '0' _ flags (by decide), match_number,
      if_pos (by decide)]
    have := overflow_hex_reads_uninit v
    rw [show ('0' :: "x10000000000000000".toList).drop 2 = "10000000000000000".toList from rfl,
      this]
    simp only [ne_eq, narrowest_uint_ne_unknown, not_false_eq_true, if_true]
    rw [if_neg (by decide)]
  exact ⟨h1 u, by decide, h2 u, by decide, (h1 ⟨0, 0⟩).trans (by decide),
    (h2 ⟨0, 0⟩).trans (by decide)⟩

theorem smallest_uint_type_resolved (u : uninit) (s : List Char) (base : Nat)
    (h : smallest_uint_type u s base ≠ unknown) :
    is_resolved (smallest_uint_type u s base) = true := by
  unfold smallest_uint_type at h ⊢
  simp only [] at h ⊢
  split_ifs at h ⊢ <;> first | rfl | exact absurd rfl h

theorem smallest_int_type_resolved (u : uninit) (s : List Char)
    (h : smallest_int_type u s ≠ unknown) :
    is_resolved (smallest_int_type u s) = true := by
  unfold smallest_int_type at h ⊢
  simp only [] at h ⊢
  split_ifs at h ⊢ <;> first | rfl | exact absurd rfl h

theorem smallest_float_type_resolved (s : List Char)
    (h : smallest_float_type s ≠ unknown) :
    is_resolved (smallest_float_type s) = true := by
  unfold smallest_float_type at h ⊢
  split_ifs at h ⊢ <;> first | rfl | exact absurd rfl h

theorem match_signed_or_float_resolved (u : uninit) (first : List Char) :
    is_resolved (match_signed_or_float u first) = true := by
  unfold match_signed_or_float
  split_ifs with h1 h2
  · exact smallest_int_type_resolved u first h1
  · exact smallest_float_type_resolved first h2
  · rfl

theorem match_decimal_resolved (u : uninit) (first : List Char) :
    is_resolved (match_decimal u first) = true := by
  unfold match_decimal
  split_ifs
  · rfl
  · exact match_signed_or_float_resolved u _
  · exact match_signed_or_float_resolved u _

theorem match_number_resolved (u : uninit) (chars : List Char) :
    is_resolved (match_number u chars) = true := by
  unfold match_number
  split_ifs with h1 h2 h3
  · rfl
  · exact smallest_uint_type_resolved u _ 16 h3
  · exact match_decimal_resolved u _
  · exact match_decimal_resolved u _

theorem match_type_resolved (u : uninit) (chars : List Char) (flags : csv_flags)
    (h : chars ≠ []) : is_resolved (match_type u chars flags) = true := by
  have h0 : chars.length ≠ 0 := by simpa using h
  rw [match_type_eq, if_neg h0]
  split_ifs
  · rfl
  · rfl
  · exact match_number_resolved u chars

/-- C26 (unknown only for the empty range): for every range and every flags value,
`match_type` returns `unknown` exactly when the range is empty, and for a non-empty range
it returns `boolean`, an integer type, `float64` or `string`, none of which is `unknown`,
`float32` or `float80`. -/
theorem match_type_unknown_iff (u : uninit) (chars : List Char) (flags : csv_flags) :
    (match_type u chars flags = unknown ↔ chars = [])
      ∧ (chars ≠ [] → is_resolved (match_type u chars flags) = true)
      ∧ is_resolved unknown = false ∧ is_resolved float32 = false
      ∧ is_resolved float80 = false := by
  refine ⟨⟨fun h => ?_, fun h => by rw [h, match_type_nil]⟩,
    match_type_resolved u chars flags, rfl, rfl, rfl⟩
  by_contra hne
  have := match_type_resolved u chars flags hne
  rw [h] at this
  exact absurd this (by decide)

/-- Witness of C26 at the range `0x`. -/
theorem match_type_unknown_iff_witness :
    "0x".toList ≠ [] ∧ is_resolved (match_type ⟨0, 0⟩ "0x".toList test_flags) = true :=
  ⟨by decide, (match_type_unknown_iff ⟨0, 0⟩ "0x".toList test_flags).2.1 (by decide)⟩

/-! ## The type accumulator on the types without unsigned integers -/

theorem accum_column_plain (a l : csv_type) (ha : no_unsigned a = true)
    (hl : no_unsigned l = true) :
    no_unsigned (accum_column a l).1 = true ∧ (accum_column a l).2 = false
      ∧ accum_column a l = accum_column l a := by
  cases a <;> cases l <;> first
    | exact absurd ha (by decide)
    | exact absurd hl (by decide)
    | exact ⟨rfl, rfl, rfl⟩

theorem accum_column_plain_assoc (a b c : csv_type) (ha : no_unsigned a = true)
    (hb : no_unsigned b = true) (hc : no_unsigned c = true) :
    (accum_column (accum_column a b).1 c).1 = (accum_column a (accum_column b c).1).1 := by
  cases a <;> first
    | exact absurd ha (by decide)
    | (cases b <;> first
        | exact absurd hb (by decide)
        | (cases c <;> first
            | exact absurd hc (by decide)
            | rfl))

theorem plain_vector_cons (x : csv_type) (v : csv_type_vector) :
    plain_vector (x :: v) ↔ no_unsigned x = true ∧ plain_vector v := by
  simp [plain_vector]

theorem accum_plain (a l : csv_type_vector) (ha : plain_vector a) (hl : plain_vector l) :
    plain_vector (accum_line_types a l).1 ∧ (accum_line_types a l).2 = false := by
  induction a generalizing l with
  | nil => rw [accum_line_types_nil_left]; exact ⟨hl, rfl⟩
  | cons x a ih =>
    cases l with
    | nil => rw [accum_line_types_nil_right]; exact ⟨ha, rfl⟩
    | cons y l =>
      rw [plain_vector_cons] at ha hl
      obtain ⟨h1, h2⟩ := ih l ha.2 hl.2
      obtain ⟨c1, c2, _⟩ := accum_column_plain x y ha.1 hl.1
      rw [accum_line_types_cons]
      exact ⟨(plain_vector_cons _ _).mpr ⟨c1, h1⟩, by simp [c2, h2]⟩

theorem accum_plain_comm (a l : csv_type_vector) (ha : plain_vector a) (hl : plain_vector l) :
    (accum_line_types a l).1 = (accum_line_types l a).1 := by
  induction a generalizing l with
  | nil => rw [accum_line_types_nil_left, accum_line_types_nil_right]
  | cons x a ih =>
    cases l with
    | nil => rw [accum_line_types_nil_left, accum_line_types_nil_right]
    | cons y l =>
      rw [plain_vector_cons] at ha hl
      rw [accum_line_types_cons, accum_line_types_cons, ih l ha.2 hl.2,
        (accum_column_plain x y ha.1 hl.1).2.2]

theorem accum_plain_assoc (a b c : csv_type_vector) (ha : plain_vector a)
    (hb : plain_vector b) (hc : plain_vector c) :
    (accum_line_types (accum_line_types a b).1 c).1
      = (accum_line_types a (accum_line_types b c).1).1 := by
  induction a generalizing b c with
  | nil => simp only [accum_line_types_nil_left]
  | cons x a ih =>
    cases b with
    | nil => simp only [accum_line_types_nil_left, accum_line_types_nil_right]
    | cons y b =>
      cases c with
      | nil => simp only [accum_line_types_nil_right]
      | cons z c =>
        rw [plain_vector_cons] at ha hb hc
        simp only [accum_line_types_cons]
        rw [ih b c ha.2 hb.2 hc.2, accum_column_plain_assoc x y z ha.1 hb.1 hc.1]

/-- On lines without unsigned integer types, `accum_lines` is the fold of the vector
merge and reaches no assertion. -/
theorem accum_fold_plain (lines : List csv_type_vector) (acc : csv_type_vector) (f : Bool)
    (hacc : plain_vector acc) (hl : ∀ v ∈ lines, plain_vector v) :
    lines.foldl (fun st l => let r := accum_line_types st.1 l; (r.1, st.2 || r.2)) (acc, f)
      = (lines.foldl (fun a l => (accum_line_types a l).1) acc, f) := by
  induction lines generalizing acc f with
  | nil => rfl
  | cons v vs ih =>
    have hv := hl v (List.mem_cons_self _ _)
    obtain ⟨h1, h2⟩ := accum_plain acc v hacc hv
    simp only [List.foldl_cons, h2, Bool.or_false]
    exact ih _ f h1 (fun w hw => hl w (List.mem_cons_of_mem _ hw))

theorem foldl_plain_perm (l1 l2 : List csv_type_vector) (hp : List.Perm l1 l2)
    (acc : csv_type_vector) (hacc : plain_vector acc) (hl : ∀ v ∈ l1, plain_vector v) :
    l1.foldl (fun a l => (accum_line_types a l).1) acc
      = l2.foldl (fun a l => (accum_line_types a l).1) acc := by
  induction hp generalizing acc with
  | nil => rfl
  | cons x _ ih =>
    simp only [List.foldl_cons]
    exact ih _ (accum_plain acc x hacc (hl x (List.mem_cons_self _ _))).1
      (fun w hw => hl w (List.mem_cons_of_mem _ hw))
  | swap x y l =>
    simp only [List.foldl_cons]
    have hx := hl x (List.mem_cons_of_mem _ (List.mem_cons_self _ _))
    have hy := hl y (List.mem_cons_self _ _)
    rw [accum_plain_assoc acc y x hacc hy hx, accum_plain_comm y x hy hx,
      ← accum_plain_assoc acc x y hacc hx hy]
  | trans h12 _ ih1 ih2 =>
    rw [ih1 acc hacc hl]
    exact ih2 acc hacc (fun w hw => hl w (h12.mem_iff.mpr hw))

theorem accum_lines_plain_perm (l1 l2 : List csv_type_vector) (hp : List.Perm l1 l2)
    (hl : ∀ v ∈ l1, plain_vector v) : accum_lines l1 = accum_lines l2 := by
  unfold accum_lines
  rw [accum_fold_plain l1 [] false (fun _ h => absurd h (List.not_mem_nil _)) hl,
    accum_fold_plain l2 [] false (fun _ h => absurd h (List.not_mem_nil _))
      (fun w hw => hl w (hp.mem_iff.mpr hw)),
    foldl_plain_perm l1 l2 hp [] (fun _ h => absurd h (List.not_mem_nil _)) hl]

theorem accum_column_plain_lub (a b c : csv_type) :
    (no_unsigned a && no_unsigned b) = true →
      lattice_le a (accum_column a b).1 = true ∧ lattice_le b (accum_column a b).1 = true
        ∧ ((no_unsigned c && lattice_le a c && lattice_le b c) = true →
            lattice_le (accum_column a b).1 c = true) := by
  cases a <;> cases b <;> cases c <;> decide

theorem lattice_le_order (a b c : csv_type) :
    lattice_le a a = true
      ∧ ((lattice_le a b && lattice_le b a) = true → a = b)
      ∧ ((no_unsigned a && no_unsigned b && no_unsigned c && lattice_le a b
            && lattice_le b c) = true → lattice_le a c = true) := by
  cases a <;> cases b <;> cases c <;> decide

theorem accum_column_plain_units (a : csv_type) (ha : no_unsigned a = true) :
    accum_column a a = (a, false) ∧ accum_column a unknown = (a, false)
      ∧ accum_column unknown a = (a, false) ∧ accum_column a string = (string, false)
      ∧ accum_column string a = (string, false)
      ∧ lattice_le unknown a = true ∧ lattice_le a string = true := by
  cases a <;> first | exact absurd ha (by decide) | exact ⟨rfl, rfl, rfl, rfl, rfl, rfl, rfl⟩

/-- C25 (semilattice): on the types `unknown`, `boolean`, `int8`, `int16`, `int32`, `int64`,
`float64` and `string` the merge of one column stays among these types, reaches no
assertion, is commutative, associative and idempotent, has `unknown` as identity and
`string` as absorbing element, and is the least upper bound for the order
`unknown < boolean < string`, `unknown < int8 < int16 < int32 < int64 < float64 < string`,
which is reflexive, antisymmetric and transitive. Hence folding `accum_line_types` over
lines of such types gives the same vector for every permutation of the lines. -/
theorem accum_semilattice :
    (∀ a b : csv_type, no_unsigned a = true → no_unsigned b = true →
        no_unsigned (accum_column a b).1 = true ∧ (accum_column a b).2 = false
          ∧ accum_column a b = accum_column b a
          ∧ lattice_le a (accum_column a b).1 = true
          ∧ lattice_le b (accum_column a b).1 = true
          ∧ ∀ c : csv_type, no_unsigned c = true → lattice_le a c = true →
              lattice_le b c = true → lattice_le (accum_column a b).1 c = true)
      ∧ (∀ a b c : csv_type, no_unsigned a = true → no_unsigned b = true →
          no_unsigned c = true →
          (accum_column (accum_column a b).1 c).1 = (accum_column a (accum_column b c).1).1)
      ∧ (∀ a : csv_type, no_unsigned a = true →
          accum_column a a = (a, false) ∧ accum_column a unknown = (a, false)
            ∧ accum_column unknown a = (a, false) ∧ accum_column a string = (string, false)
            ∧ accum_column string a = (string, false)
            ∧ lattice_le unknown a = true ∧ lattice_le a string = true)
      ∧ (∀ a b c : csv_type, lattice_le a a = true
          ∧ (lattice_le a b = true → lattice_le b a = true → a = b)
          ∧ (no_unsigned a = true → no_unsigned b = true → no_unsigned c = true →
              lattice_le a b = true → lattice_le b c = true → lattice_le a c = true))
      ∧ ∀ l1 l2 : List csv_type_vector, List.Perm l1 l2 →
          (∀ v ∈ l1, plain_vector v) → accum_lines l1 = accum_lines l2 := by
  refine ⟨fun a b ha hb => ?_, accum_column_plain_assoc, accum_column_plain_units,
    fun a b c => ?_, accum_lines_plain_perm⟩
  · obtain ⟨h1, h2, h3⟩ := accum_column_plain a b ha hb
    have hl := fun c => accum_column_plain_lub a b c (by simp [ha, hb])
    exact ⟨h1, h2, h3, (hl unknown).1, (hl unknown).2.1,
      fun c hc hac hbc => (hl c).2.2 (by simp [hc, hac, hbc])⟩
  · obtain ⟨h1, h2, h3⟩ := lattice_le_order a b c
    exact ⟨h1, fun hab hba => h2 (by simp [hab, hba]),
      fun ha hb hc hab hbc => h3 (by simp [ha, hb, hc, hab, hbc])⟩

/-- Witness of C25: three lines of different lengths, folded in two orders. -/
theorem accum_semilattice_witness :
    List.Perm [[int8, boolean], [float64], [int32, int8, string]]
        [[float64], [int32, int8, string], [int8, boolean]]
      ∧ (∀ v ∈ [[int8, boolean], [float64], [int32, int8, string]], plain_vector v)
      ∧ accum_lines [[int8, boolean], [float64], [int32, int8, string]]
          = accum_lines [[float64], [int32, int8, string], [int8, boolean]]
      ∧ accum_lines [[int8, boolean], [float64], [int32, int8, string]]
          = ([float64, string, string], false) :=
  ⟨by decide, by decide,
    accum_semilattice.2.2.2.2 _ _ (by decide) (by decide), by decide⟩

/-! ## Out-of-range fields inside a run

What holds of a single call of `match_type` on an out-of-range literal holds of the calls
a run of `eval_line_types` makes: the entry of an out-of-range field is chosen from what
the uninitialized local holds in that call. -/

theorem match_type_nines (u : uninit) (flags : csv_flags) :
    match_type u nines flags = narrowest_sint u.int64_val := by
  rw [show nines = '9' :: "9999999999999999999".toList from rfl,
    match_type_of_dec_head u '9' _ flags (by decide),
    match_number_of_not_hex u _ (by decide), match_decimal_of_not_plus u _ (by decide),
    match_signed_or_float]
  have := overflow_int_reads_uninit u
  rw [show "99999999999999999999".toList = '9' :: "9999999999999999999".toList from rfl]
    at this
  rw [this]
  simp only [ne_eq, narrowest_sint_ne_unknown, not_false_eq_true, if_true]

theorem nines_not_val_independent (flags : csv_flags) : ¬ val_independent nines flags := by
  intro h
  have := h ⟨0, 0⟩ ⟨1000, 0⟩
  rw [match_type_nines, match_type_nines] at this
  exact absurd this (by decide)

theorem eval_line_types_nines (us : Nat → uninit) (flags : csv_flags) :
    eval_line_types us nines [','] ['"'] ['"'] [' ', '\t'] flags
        = scan_result.types [narrowest_sint (us 0).int64_val]
      ∧ eval_line_types us ('"' :: (nines ++ ['"'])) [','] ['"'] ['"'] [' ', '\t'] flags
        = scan_result.types [narrowest_sint (us 0).int64_val]
      ∧ eval_line_types us ('"' :: nines) [','] ['"'] ['"'] [' ', '\t'] flags
        = scan_result.types [narrowest_sint (us 0).int64_val] := by
  refine ⟨?_, ?_, ?_⟩
  · have h := eval_fields_unquoted_step us [','] ['"'] [' ', '\t'] '"' flags 19 nines_field []
      (by decide) (by decide) (by decide) (by simp) (by decide)
    rw [← match_type_nines (us 0) flags]
    exact h
  · have h := eval_fields_quoted_step us [','] [' ', '\t'] '"' '"' flags 21 [] nines [] []
      (by decide) (by simp) (by decide) (by simp) (by simp)
    rw [← match_type_nines (us 0) flags]
    exact h
  · have h := eval_fields_unterminated us [','] [' ', '\t'] '"' '"' flags 20 [] nines
      (by decide) (by simp) (by decide)
    rw [← match_type_nines (us 0) flags]
    exact h

end CsvReader
